import Mathlib

/-!
Verification of the real-time gateway / HTTP core of guilded.py.

This file shallowly embeds the code in `src/guilded/gateway.py` and
`src/guilded/http.py`: JSON values and Python's `json.dumps` / `json.loads`
are modelled by the `Json` type with `dumps` / `loads`; the wire-frame
decoding (`GuildedWebSocket._full_event_parse` / `_pretty_event`), the
gateway event handlers (`WebSocketEventParsers`), the bounded message cache
(`HTTPClient.add_to_message_cache`), the rate-limit retry loop
(`HTTPClient.request`) and the heartbeat thread (`Heartbeater.run`) are
embedded as pure state-passing functions.  Classes of this repository that
are not under `src/` (Client, Team, Member, Message) are modelled from the
spec where the handlers touch them; such definitions carry a
`Modelled from the spec:` doc comment.
-/

namespace GuildedSpec

/-- JSON values, as produced by Python's `json.loads` and consumed by
`json.dumps`.  Numbers are restricted to integers (the only numbers the
claims exercise); Python object/dict insertion order is preserved by
representing objects as association lists. -/
inductive Json where
  | null : Json
  | bool (b : Bool) : Json
  | num (n : Int) : Json
  | str (s : String) : Json
  | arr (items : List Json) : Json
  | obj (fields : List (String × Json)) : Json

/-- Python truthiness (`if x:`) for the modelled values: `None`, `False`,
`0`, `""`, `[]` and an empty dict are falsy, everything else truthy. -/
def truthy : Json → Bool
  | Json.null => false
  | Json.bool b => b
  | Json.num n => n != 0
  | Json.str s => s != ""
  | Json.arr l => !l.isEmpty
  | Json.obj fs => !fs.isEmpty

/-- `dict.get(k)` on an association list: first binding wins (keys are
unique in dicts built by insertion). -/
def alGet {K V : Type} [DecidableEq K] : List (K × V) → K → Option V
  | [], _ => Option.none
  | (k2, v) :: rest, k => if k2 = k then Option.some v else alGet rest k

/-- `d[k] = v` on an insertion-ordered dict: an existing key keeps its
position and gets the new value; a fresh key is appended. -/
def alSet {K V : Type} [DecidableEq K] : List (K × V) → K → V → List (K × V)
  | [], k, v => [(k, v)]
  | (k2, v2) :: rest, k, v =>
    if k2 = k then (k, v) :: rest else (k2, v2) :: alSet rest k v

/-- Truthiness of an optional value (`dict.get` returns `None` when the
key is absent, and `None` is falsy). -/
def optTruthy (o : Option Json) : Bool :=
  match o with
  | Option.none => false
  | Option.some j => truthy j

/-- Python `str.isdigit()`: true iff the string is nonempty and all of its
characters are digits (modelled for the ASCII digits the protocol uses). -/
def pyStrIsDigit (s : String) : Bool :=
  !s.data.isEmpty && s.data.all Char.isDigit

/-! ## `json.dumps` (src/guilded/http.py line 331 uses it for outbound frames) -/

/-- Escaping of one character inside a JSON string literal, as
`json.dumps` performs it for the characters our payloads use. -/
def escChar (c : Char) : String :=
  if c = '"' then "\\\""
  else if c = '\\' then "\\\\"
  else if c = '\n' then "\\n"
  else if c = '\t' then "\\t"
  else if c = '\r' then "\\r"
  else String.mk [c]

/-- A JSON string literal: quotes around the escaped characters. -/
def escString (s : String) : String :=
  "\"" ++ String.join (s.data.map escChar) ++ "\""

mutual

/-- Python `json.dumps` with its default separators `", "` and `": "`. -/
def dumps : Json → String
  | Json.null => "null"
  | Json.bool true => "true"
  | Json.bool false => "false"
  | Json.num n => toString n
  | Json.str s => escString s
  | Json.arr items => "[" ++ dumpsItems items ++ "]"
  | Json.obj fields => "\x7b" ++ dumpsFields fields ++ "\x7d"

/-- Comma-separated array elements. -/
def dumpsItems : List Json → String
  | [] => ""
  | [j] => dumps j
  | j :: rest => dumps j ++ ", " ++ dumpsItems rest

/-- Comma-separated `"key": value` members. -/
def dumpsFields : List (String × Json) → String
  | [] => ""
  | [(k, v)] => escString k ++ ": " ++ dumps v
  | (k, v) :: rest => escString k ++ ": " ++ dumps v ++ ", " ++ dumpsFields rest

end

/-! ## `json.loads`, the standard JSON parser the gateway relies on -/

/-- Skip JSON whitespace. -/
def skipWs : List Char → List Char
  | [] => []
  | c :: rest =>
    if c = ' ' ∨ c = '\n' ∨ c = '\t' ∨ c = '\r' then skipWs rest else c :: rest

/-- Parse the body of a string literal (after the opening quote),
handling the basic escapes. -/
def parseStrAux (acc : List Char) : List Char → Option (String × List Char)
  | [] => Option.none
  | c :: rest =>
    if c = '"' then Option.some (String.mk acc.reverse, rest)
    else if c = '\\' then
      match rest with
      | [] => Option.none
      | e :: rest2 =>
        if e = '"' then parseStrAux ('"' :: acc) rest2
        else if e = '\\' then parseStrAux ('\\' :: acc) rest2
        else if e = '/' then parseStrAux ('/' :: acc) rest2
        else if e = 'n' then parseStrAux ('\n' :: acc) rest2
        else if e = 't' then parseStrAux ('\t' :: acc) rest2
        else if e = 'r' then parseStrAux ('\r' :: acc) rest2
        else Option.none
    else parseStrAux (c :: acc) rest

/-- Value of a run of decimal digits. -/
def digitsToNat (ds : List Char) : Nat :=
  ds.foldl (fun a c => a * 10 + (c.toNat - 48)) 0

/-- Parse an integer JSON number (the only numbers the claims exercise;
fractional and exponent forms are outside this model). -/
def parseNum (cs : List Char) : Option (Json × List Char) :=
  match cs with
  | '-' :: rest =>
    match rest.span Char.isDigit with
    | (ds, r) =>
      if ds.isEmpty then Option.none
      else Option.some (Json.num (-(digitsToNat ds : Int)), r)
  | _ =>
    match cs.span Char.isDigit with
    | (ds, r) =>
      if ds.isEmpty then Option.none
      else Option.some (Json.num (digitsToNat ds), r)

/-- Match an expected literal spelling. -/
def matchLit : List Char → List Char → Option (List Char)
  | [], cs => Option.some cs
  | p :: ps, c :: cs => if c = p then matchLit ps cs else Option.none
  | _ :: _, [] => Option.none

mutual

/-- Recursive-descent JSON value parser (fuel-indexed). -/
def parseVal : Nat → List Char → Option (Json × List Char)
  | 0, _ => Option.none
  | fuel + 1, cs =>
    match skipWs cs with
    | [] => Option.none
    | c :: rest =>
      if c = '"' then
        match parseStrAux [] rest with
        | Option.some (s, r) => Option.some (Json.str s, r)
        | Option.none => Option.none
      else if c = '\x7b' then parseObjBody fuel (skipWs rest)
      else if c = '[' then parseArrBody fuel (skipWs rest)
      else if c = 't' then
        match matchLit ['r', 'u', 'e'] rest with
        | Option.some r => Option.some (Json.bool true, r)
        | Option.none => Option.none
      else if c = 'f' then
        match matchLit ['a', 'l', 's', 'e'] rest with
        | Option.some r => Option.some (Json.bool false, r)
        | Option.none => Option.none
      else if c = 'n' then
        match matchLit ['u', 'l', 'l'] rest with
        | Option.some r => Option.some (Json.null, r)
        | Option.none => Option.none
      else parseNum (c :: rest)
termination_by structural fuel _ => fuel

/-- Array body, after the opening bracket. -/
def parseArrBody : Nat → List Char → Option (Json × List Char)
  | 0, _ => Option.none
  | fuel + 1, cs =>
    match cs with
    | ']' :: r => Option.some (Json.arr [], r)
    | _ =>
      match parseVal fuel cs with
      | Option.some (v, r) => parseArrTail fuel [v] (skipWs r)
      | Option.none => Option.none
termination_by structural fuel _ => fuel

/-- Array continuation: comma-separated values until the closing bracket. -/
def parseArrTail : Nat → List Json → List Char → Option (Json × List Char)
  | 0, _, _ => Option.none
  | fuel + 1, acc, cs =>
    match cs with
    | ']' :: r => Option.some (Json.arr acc.reverse, r)
    | ',' :: r =>
      match parseVal fuel (skipWs r) with
      | Option.some (v, r2) => parseArrTail fuel (v :: acc) (skipWs r2)
      | Option.none => Option.none
    | _ => Option.none
termination_by structural fuel _ _ => fuel

/-- One `"key": value` member. -/
def parseMember : Nat → List Char → Option (String × Json × List Char)
  | 0, _ => Option.none
  | fuel + 1, cs =>
    match skipWs cs with
    | '"' :: r =>
      match parseStrAux [] r with
      | Option.some (k, r2) =>
        match skipWs r2 with
        | ':' :: r3 =>
          match parseVal fuel (skipWs r3) with
          | Option.some (v, r4) => Option.some (k, v, r4)
          | Option.none => Option.none
        | _ => Option.none
      | Option.none => Option.none
    | _ => Option.none
termination_by structural fuel _ => fuel

/-- Object body, after the opening brace.  Duplicate keys follow Python's
dict semantics: first position, last value (via `alSet`). -/
def parseObjBody : Nat → List Char → Option (Json × List Char)
  | 0, _ => Option.none
  | fuel + 1, cs =>
    match cs with
    | '\x7d' :: r => Option.some (Json.obj [], r)
    | _ =>
      match parseMember fuel cs with
      | Option.some (k, v, r) => parseObjTail fuel [(k, v)] (skipWs r)
      | Option.none => Option.none
termination_by structural fuel _ => fuel

/-- Object continuation: comma-separated members until the closing brace. -/
def parseObjTail : Nat → List (String × Json) → List Char → Option (Json × List Char)
  | 0, _, _ => Option.none
  | fuel + 1, acc, cs =>
    match cs with
    | '\x7d' :: r => Option.some (Json.obj acc, r)
    | ',' :: r =>
      match parseMember fuel r with
      | Option.some (k, v, r2) => parseObjTail fuel (alSet acc k v) (skipWs r2)
      | Option.none => Option.none
    | _ => Option.none
termination_by structural fuel _ _ => fuel

end

/-- Python `json.loads`: parse one value and require only whitespace to
remain; anything else raises `json.JSONDecodeError` (modelled as `none`). -/
def loads (s : String) : Option Json :=
  match parseVal (2 * s.length + 2) s.data with
  | Option.some (v, rest) =>
    if (skipWs rest).isEmpty then Option.some v else Option.none
  | Option.none => Option.none

/-! ## Frame codec: `GuildedWebSocket._full_event_parse` / `_pretty_event`
(src/guilded/gateway.py lines 76-94) and the outbound custom-event framing
(src/guilded/http.py line 329-331, `HTTPClient.trigger_typing`). -/

/-- Python exceptions the embedded code can raise. -/
inductive PyErr where
  | keyError : PyErr
  | indexError : PyErr
  | attributeError : PyErr
  | typeError : PyErr
  | unboundLocalError : PyErr
  | jsonDecodeError : PyErr
  | guildedWrapped : PyErr → PyErr

/-- `s.replace(c, "", 1)`: remove the first occurrence of a character. -/
def removeFirst (c : Char) : List Char → List Char
  | [] => []
  | x :: xs => if x = c then xs else x :: removeFirst c xs

/-- The digit-stripping loop of `_full_event_parse` (gateway.py lines
88-92): Python's `for char in payload` iterates the original string while
`payload` is rebound to `payload.replace(char, "", 1)` on each digit, and
the loop breaks at the first non-digit of the original string. -/
def stripLoop : List Char → List Char → List Char
  | [], cur => cur
  | c :: cs, cur => if c.isDigit then stripLoop cs (removeFirst c cur) else cur

/-- The full strip phase: iterate over the original characters, starting
from the original string. -/
def stripTypeCode (s : String) : String :=
  String.mk (stripLoop s.data s.data)

/-- `payload.pop("type")` leaves the remaining keys in order. -/
def popKey (fs : List (String × Json)) (k : String) : List (String × Json) :=
  fs.filter (fun kv => kv.1 != k)

/-- `GuildedWebSocket._pretty_event` (gateway.py lines 76-85): if the
parsed value is a list, replace it by its second element (`payload[1]`,
`IndexError` if too short); a payload without a truthy `type` key is
returned unchanged; otherwise `type` is popped out and the rest becomes
`data`.  Calling `.get` on a non-dict raises `AttributeError`. -/
def prettyEvent : Json → Except PyErr Json
  | Json.arr l =>
    match l.get? 1 with
    | Option.none => Except.error PyErr.indexError
    | Option.some p =>
      match p with
      | Json.obj fs =>
        match alGet fs "type" with
        | Option.none => Except.ok (Json.obj fs)
        | Option.some t =>
          if truthy t then
            Except.ok (Json.obj [("type", t), ("data", Json.obj (popKey fs "type"))])
          else Except.ok (Json.obj fs)
      | _ => Except.error PyErr.attributeError
  | Json.obj fs =>
    match alGet fs "type" with
    | Option.none => Except.ok (Json.obj fs)
    | Option.some t =>
      if truthy t then
        Except.ok (Json.obj [("type", t), ("data", Json.obj (popKey fs "type"))])
      else Except.ok (Json.obj fs)
  | _ => Except.error PyErr.attributeError

/-- `GuildedWebSocket._full_event_parse` (gateway.py lines 87-94): strip
the leading protocol type code, `json.loads` the remainder (a parse
failure propagates), then prettify. -/
def fullEventParse (s : String) : Except PyErr Json :=
  match loads (stripTypeCode s) with
  | Option.none => Except.error PyErr.jsonDecodeError
  | Option.some v => prettyEvent v

/-- The outbound custom-event framing used by `HTTPClient.trigger_typing`
(http.py line 331): the fixed control prefix `"42"` followed by
`json.dumps([eventName, payload])`. -/
def encode (eventName : String) (payload : Json) : String :=
  "42" ++ dumps (Json.arr [Json.str eventName, payload])


/-! ## `HTTPClient.request` (src/guilded/http.py lines 91-127)

The nested coroutine `perform()` issues one HTTP call per invocation;
we model a run by the list of responses the session returns to the
successive `session.request` calls.  `response.headers.get("Retry-After")`
yields an HTTP header, which is a *string*; the code passes it unconverted
to `asyncio.sleep`, whose `delay <= 0` comparison between `str` and `int`
raises `TypeError`. -/

/-- One scripted HTTP response: status, optional `Retry-After` header
(header values are strings) and parsed JSON body. -/
structure HResp where
  status : Nat
  retryAfter : Option String
  body : Json

/-- Outcome of `HTTPClient.request` for a non-`/login` route. -/
inductive ReqOutcome where
  | ok : Option Json → ReqOutcome
  | httpError : Nat → ReqOutcome
  | typeError : ReqOutcome
  | exhausted : ReqOutcome

/-- `perform()` over a scripted response list.  Returns the list of
completed `asyncio.sleep` durations (seconds) and the outcome:
`ok none` for 204; on `429` with a truthy `Retry-After` header the string
is handed to `asyncio.sleep`, which raises `TypeError` before sleeping;
with the header absent (or empty, hence falsy) the code sleeps 5 seconds
and recursively resubmits; other statuses `>= 400` raise the mapped HTTP
error (`error_mapping.get(status, HTTPException)`); a non-200 status
below 400 falls through and returns the body. -/
def performRun : List HResp → List ℚ × ReqOutcome
  | [] => ([], ReqOutcome.exhausted)
  | r :: rest =>
    if r.status = 204 then ([], ReqOutcome.ok Option.none)
    else if r.status = 200 then ([], ReqOutcome.ok (Option.some r.body))
    else if r.status = 429 then
      match r.retryAfter with
      | Option.some h =>
        if h = "" then
          match performRun rest with
          | (s, o) => ((5 : ℚ) :: s, o)
        else ([], ReqOutcome.typeError)
      | Option.none =>
        match performRun rest with
        | (s, o) => ((5 : ℚ) :: s, o)
    else if r.status ≥ 400 then ([], ReqOutcome.httpError r.status)
    else ([], ReqOutcome.ok (Option.some r.body))

/-! ## The bounded message cache: `HTTPClient.add_to_message_cache`
(src/guilded/http.py lines 67-70). -/

/-- Message objects.  Modelled from the spec: the `Message` class lives in
`guilded/message.py`, which is not under `src/`; the spec says a message
carries an id, its team scope and the raw payload, plus the immutable
fields (`createdAt`, `webhookId`) that `ChatMessageUpdated` carries
forward. -/
structure MsgObj where
  msgId : String
  teamId : Option String
  webhookId : Json
  raw : Json

/-- The eviction loop `while len(self._messages) > self._max_messages:
del self._messages[list(self._messages.keys())[0]]`: repeatedly delete
the first (oldest-inserted) key. -/
def evictOldest (maxM : Nat) : List (String × MsgObj) → List (String × MsgObj)
  | [] => []
  | x :: xs => if (x :: xs).length > maxM then evictOldest maxM xs else x :: xs

/-- `add_to_message_cache`: insert (idempotent overwrite keyed by
`message.id`), then evict oldest entries while over the bound. -/
def addToMessageCache (maxM : Nat) (c : List (String × MsgObj)) (m : MsgObj) :
    List (String × MsgObj) :=
  evictOldest maxM (alSet c m.msgId m)

/-! ## Gateway state

`GuildedWebSocket` fields (gateway.py lines 30-45), the `HTTPClient`
object caches (http.py lines 39-85), a heap of mutable `Member` objects
(so that Python object identity is visible to the model), and the public
event-dispatch record.  `Client`, `Team`, `Member` are not under `src/`;
the pieces of them the handlers touch are modelled from the spec below. -/

/-- `Heartbeater.latency` (gateway.py line 343): `float("inf")` until - if
ever - a measurement is stored. -/
inductive LatVal where
  | inf : LatVal
  | finite : ℚ → LatVal

/-- Whether a latency value is a measured (finite) duration. -/
def LatVal.isMeasured : LatVal → Bool
  | LatVal.inf => false
  | LatVal.finite _ => true

/-- The `Heartbeater` thread object (gateway.py lines 330-343): interval
in seconds (`pingInterval / 1000`), the `latency` attribute, the `_stop_ev`
event, and whether `start()` has been called. -/
structure HBState where
  interval : ℚ
  latency : LatVal
  stopEv : Bool
  started : Bool

/-- Modelled from the spec: a cached `Member` (class in `guilded/user.py`,
not under `src/`) carries its user id, its team's id (`member.team.id`)
and updatable profile attributes (`setattr` targets a generic field map). -/
structure MemberObj where
  userId : String
  teamId : String
  fields : List (String × Json)

/-- Modelled from the spec: a channel resolved by the cache-or-fetch
facade; the handlers only use its id and team scope. -/
structure ChannelObj where
  chanId : String
  teamId : Option String

/-- An argument of a `client.dispatch` call.  Member arguments are heap
references so object identity is observable. -/
inductive EvArg where
  | jsonArg : Json → EvArg
  | strArg : String → EvArg
  | memberArg : Nat → EvArg
  | msgArg : MsgObj → EvArg
  | cachedMsgArg : Option MsgObj → EvArg
  | nowArg : EvArg
  | errArg : PyErr → EvArg

/-- One dispatched event: name and arguments, in dispatch order. -/
structure Ev where
  name : String
  args : List EvArg

/-- The combined connection state. -/
structure GState where
  /-- `GuildedWebSocket.sid` (None until the handshake). -/
  sid : Option Json
  /-- `GuildedWebSocket.upgrades` (initially `[]`). -/
  upgrades : Json
  /-- `GuildedWebSocket._heartbeater` (None until the handshake). -/
  heartbeater : Option HBState
  /-- Payload strings passed to `GuildedWebSocket.send`. -/
  sentPayloads : List String
  /-- `HTTPClient._max_messages`. -/
  maxMessages : Nat
  /-- `HTTPClient._messages`: the bounded message cache. -/
  messages : List (String × MsgObj)
  /-- `HTTPClient._teams`: cached team ids (the handlers only use ids). -/
  teams : List String
  /-- Heap of `Member` objects, keyed by reference. -/
  memberHeap : List (Nat × MemberObj)
  /-- Next fresh heap reference. -/
  nextRef : Nat
  /-- `HTTPClient._team_members`: team id → (user id → member reference). -/
  teamMembers : List (String × List (String × Nat))
  /-- Cache-or-fetch channel resolution results (spec-modelled facade). -/
  channels : List (String × ChannelObj)
  /-- Cache-or-fetch user resolution results (spec-modelled facade). -/
  users : List String
  /-- All `client.dispatch` calls so far, in order. -/
  events : List Ev

/-- `client.dispatch(name, *args)`.  Modelled from the spec: the Client
class is not under `src/`; dispatch fires a public event, recorded here. -/
def dispatchEv (st : GState) (name : String) (args : List EvArg) : GState :=
  { st with events := st.events ++ [⟨name, args⟩] }

/-- Allocate a fresh `Member` object on the heap, returning its reference. -/
def allocMember (st : GState) (m : MemberObj) : GState × Nat :=
  ({ st with memberHeap := st.memberHeap ++ [(st.nextRef, m)],
             nextRef := st.nextRef + 1 }, st.nextRef)

/-- Read a member object through its reference. -/
def heapGet (st : GState) (r : Nat) : Option MemberObj :=
  alGet st.memberHeap r

/-- `setattr(member, k, v)`: mutate the object in place; every holder of
the same reference observes the update. -/
def heapSetField (st : GState) (r : Nat) (k : String) (v : Json) : GState :=
  match alGet st.memberHeap r with
  | Option.none => st
  | Option.some m =>
    { st with memberHeap := alSet st.memberHeap r { m with fields := alSet m.fields k v } }

/-- Modelled from the spec: `client.get_team` reads the team cache
(ObjectCache lookup; `Client` is not under `src/`). -/
def getTeam (st : GState) (tid : String) : Option String :=
  if tid ∈ st.teams then Option.some tid else Option.none

/-- Modelled from the spec: `team.get_member(uid)` reads the
team-members mapping, keyed by team then member id. -/
def teamGetMember (st : GState) (tid uid : String) : Option Nat :=
  match alGet st.teamMembers tid with
  | Option.none => Option.none
  | Option.some inner => alGet inner uid

/-- Modelled from the spec: `client.get_message` reads the message cache. -/
def getMessage (st : GState) (mid : String) : Option MsgObj :=
  alGet st.messages mid

/-- `HTTPClient.add_to_member_cache` (http.py lines 75-79): ensure the
team's inner mapping exists, then insert the member under
`member.team.id` / `member.id`. -/
def addToMemberCache (st : GState) (r : Nat) : GState :=
  match heapGet st r with
  | Option.none => st
  | Option.some m =>
    match alGet st.teamMembers m.teamId with
    | Option.none =>
      { st with teamMembers := alSet st.teamMembers m.teamId (alSet [] m.userId r) }
    | Option.some inner =>
      { st with teamMembers := alSet st.teamMembers m.teamId (alSet inner m.userId r) }

/-- `HTTPClient.add_to_message_cache` applied to the connection state. -/
def stAddMessage (st : GState) (m : MsgObj) : GState :=
  { st with messages := addToMessageCache st.maxMessages st.messages m }

/-- Modelled from the spec: the async cache-or-fetch channel facade
(`client.getch_channel`), whose failure the handlers degrade to `None`. -/
def getchChannel (st : GState) (cid : String) : Option ChannelObj :=
  alGet st.channels cid

/-- Modelled from the spec: `client.getch_user`, same facade for users. -/
def getchUser (st : GState) (uid : String) : Option String :=
  if uid ∈ st.users then Option.some uid else Option.none

/-- Modelled from the spec: `team.getch_member`, same facade for members. -/
def getchTeamMember (st : GState) (tid uid : String) : Option Nat :=
  teamGetMember st tid uid

/-- Modelled from the spec: `Member(state=..., data=data)` builds a raw
member object from the payload; id fields are taken from the payload's
`userId` / `teamId` keys and the remaining pairs become attributes. -/
def memberFromData (fs : List (String × Json)) : MemberObj :=
  { userId :=
      match alGet fs "userId" with
      | Option.some (Json.str s) => s
      | _ => "",
    teamId :=
      match alGet fs "teamId" with
      | Option.some (Json.str s) => s
      | _ => "",
    fields := fs }

/-- Modelled from the spec: the id under which a `Message` built from an
event payload is cached - the payload's `id`, or the nested
`message.id`. -/
def msgIdOf (fs : List (String × Json)) : String :=
  match alGet fs "id" with
  | Option.some (Json.str s) => s
  | _ =>
    match alGet fs "message" with
    | Option.some (Json.obj ms) =>
      match alGet ms "id" with
      | Option.some (Json.str s) => s
      | _ => ""
    | _ => ""

/-! ## `WebSocketEventParsers` handlers (gateway.py lines 151-327)

Each handler takes the event's `data` object and returns the mutated
state together with the exception it raises, if any.  Python state
mutations performed before a raise persist. -/

/-- `ChatMessageCreated` (lines 162-207): resolve channel / author / team
best-effort (resolution failures degrade to `None`), build the message,
insert it into the bounded cache and fire `message`.  The author lookup
has no effect on the modelled state. -/
def chatMessageCreated (st : GState) (d : Json) : GState × Option PyErr :=
  match d with
  | Json.obj fs =>
    match (alGet fs "message").getD (Json.obj []) with
    | Json.obj ms =>
      let channelId := ((alGet fs "channelId").getD ((alGet ms "channelId").getD Json.null))
      let teamIdV := ((alGet fs "teamId").getD ((alGet ms "teamId").getD Json.null))
      let chan : Option ChannelObj :=
        if truthy channelId then
          match channelId with
          | Json.str s => getchChannel st s
          | _ => Option.none
        else Option.none
      let team : Option String :=
        if truthy teamIdV then
          match chan with
          | Option.some c => c.teamId
          | Option.none =>
            match teamIdV with
            | Json.str s => getTeam st s
            | _ => Option.none
        else Option.none
      let msg : MsgObj :=
        { msgId := msgIdOf fs, teamId := team,
          webhookId := (alGet fs "webhookId").getD Json.null, raw := Json.obj fs }
      let st2 := stAddMessage st msg
      (dispatchEv st2 "message" [EvArg.msgArg msg], Option.none)
    | _ => (st, Option.some PyErr.attributeError)
  | _ => (st, Option.some PyErr.attributeError)

/-- `ChatChannelTyping` (lines 209-215): dispatch `typing` with channel
id, user id and the current time. -/
def chatChannelTyping (st : GState) (d : Json) : GState × Option PyErr :=
  match d with
  | Json.obj fs =>
    match alGet fs "channelId" with
    | Option.none => (st, Option.some PyErr.keyError)
    | Option.some cid =>
      match alGet fs "userId" with
      | Option.none => (st, Option.some PyErr.keyError)
      | Option.some uid =>
        (dispatchEv st "typing" [EvArg.jsonArg cid, EvArg.jsonArg uid, EvArg.nowArg],
         Option.none)
  | _ => (st, Option.some PyErr.typeError)

/-- Extract `data["message"]["id"]` as the handlers do; a missing key is
a `KeyError`.  Non-string ids are modelled as cache misses. -/
def messageIdField (fs : List (String × Json)) : Except PyErr (Option String) :=
  match alGet fs "message" with
  | Option.none => Except.error PyErr.keyError
  | Option.some (Json.obj ms) =>
    match alGet ms "id" with
    | Option.none => Except.error PyErr.keyError
    | Option.some (Json.str s) => Except.ok (Option.some s)
    | Option.some _ => Except.ok Option.none
  | Option.some _ => Except.error PyErr.typeError

/-- `ChatMessageDeleted` (lines 217-227): always fire the raw event with
the cache lookup result attached (`data["cached_message"]`); when cached,
remove from the cache (spec-modelled `client.cached_messages.remove`) and
fire the typed event. -/
def chatMessageDeleted (st : GState) (d : Json) : GState × Option PyErr :=
  match d with
  | Json.obj fs =>
    match messageIdField fs with
    | Except.error e => (st, Option.some e)
    | Except.ok midOpt =>
      let message := match midOpt with
        | Option.some mid => getMessage st mid
        | Option.none => Option.none
      let st2 := dispatchEv st "raw_message_delete"
        [EvArg.jsonArg (Json.obj fs), EvArg.cachedMsgArg message]
      match message with
      | Option.none => (st2, Option.none)
      | Option.some m =>
        let st3 := { st2 with messages := st2.messages.filter (fun kv => kv.1 != m.msgId) }
        (dispatchEv st3 "message_delete" [EvArg.msgArg m], Option.none)
  | _ => (st, Option.some PyErr.typeError)

/-- `data.get("channelType") == "Team"`. -/
def channelTypeIsTeam (fs : List (String × Json)) : Bool :=
  match alGet fs "channelType" with
  | Option.some (Json.str s) => s == "Team"
  | _ => false

/-- `ChatPinnedMessageCreated` (lines 229-241). -/
def chatPinnedMessageCreated (st : GState) (d : Json) : GState × Option PyErr :=
  match d with
  | Json.obj fs =>
    let st2 := dispatchEv st
      (if channelTypeIsTeam fs then "raw_team_message_pinned" else "raw_dm_message_pinned")
      [EvArg.jsonArg (Json.obj fs)]
    match messageIdField fs with
    | Except.error e => (st2, Option.some e)
    | Except.ok midOpt =>
      let message := match midOpt with
        | Option.some mid => getMessage st2 mid
        | Option.none => Option.none
      match message with
      | Option.none => (st2, Option.none)
      | Option.some m =>
        (dispatchEv st2
          (if m.teamId.isSome then "team_message_pinned" else "dm_message_pinned")
          [EvArg.msgArg m], Option.none)
  | _ => (st, Option.some PyErr.typeError)

/-- `ChatPinnedMessageDeleted` (lines 243-255). -/
def chatPinnedMessageDeleted (st : GState) (d : Json) : GState × Option PyErr :=
  match d with
  | Json.obj fs =>
    let st2 := dispatchEv st
      (if channelTypeIsTeam fs then "raw_team_message_unpinned" else "raw_dm_message_unpinned")
      [EvArg.jsonArg (Json.obj fs)]
    match messageIdField fs with
    | Except.error e => (st2, Option.some e)
    | Except.ok midOpt =>
      let message := match midOpt with
        | Option.some mid => getMessage st2 mid
        | Option.none => Option.none
      match message with
      | Option.none => (st2, Option.none)
      | Option.some m =>
        (dispatchEv st2
          (if m.teamId.isSome then "team_message_unpinned" else "dm_message_unpinned")
          [EvArg.msgArg m], Option.none)
  | _ => (st, Option.some PyErr.typeError)

/-- `ChatMessageUpdated` (lines 257-274): always fire the raw edit event;
require the prior cached version; carry `webhookId` and `createdAt`
forward onto the payload, build the new message (spec-modelled `Message`
construction keeps the prior channel, hence team scope), replace the
cache entry, fire `message_edit (before, after)`. -/
def chatMessageUpdated (st : GState) (d : Json) : GState × Option PyErr :=
  match d with
  | Json.obj fs =>
    let st2 := dispatchEv st "raw_message_edit" [EvArg.jsonArg (Json.obj fs)]
    match messageIdField fs with
    | Except.error e => (st2, Option.some e)
    | Except.ok midOpt =>
      let before := match midOpt with
        | Option.some mid => getMessage st2 mid
        | Option.none => Option.none
      match before with
      | Option.none => (st2, Option.none)
      | Option.some b =>
        let createdAt := match b.raw with
          | Json.obj rfs => (alGet rfs "createdAt").getD Json.null
          | _ => Json.null
        let fs2 := alSet (alSet fs "webhookId" b.webhookId) "createdAt" createdAt
        let after : MsgObj :=
          { msgId := msgIdOf fs2, teamId := b.teamId,
            webhookId := b.webhookId, raw := Json.obj fs2 }
        let st3 := stAddMessage st2 after
        (dispatchEv st3 "message_edit" [EvArg.msgArg b, EvArg.msgArg after], Option.none)
  | _ => (st, Option.some PyErr.typeError)

/-- `TeamXpSet` (lines 276-289): no-op without a truthy `amount`; require
team and member already cached; `after = team.get_member(before.id)` is a
second lookup of the same cache slot; set `after.xp`, re-cache, dispatch
`member_update (before, after)`. -/
def teamXpSet (st : GState) (d : Json) : GState × Option PyErr :=
  match d with
  | Json.obj fs =>
    if !optTruthy (alGet fs "amount") then (st, Option.none)
    else
      match alGet fs "teamId" with
      | Option.none => (st, Option.some PyErr.keyError)
      | Option.some tidV =>
        let teamOpt := match tidV with
          | Json.str tid => getTeam st tid
          | _ => Option.none
        match teamOpt with
        | Option.none => (st, Option.none)
        | Option.some team =>
          match alGet fs "userIds" with
          | Option.none => (st, Option.some PyErr.keyError)
          | Option.some (Json.arr us) =>
            match us.head? with
            | Option.none => (st, Option.some PyErr.indexError)
            | Option.some u0 =>
              let beforeOpt := match u0 with
                | Json.str uid => teamGetMember st team uid
                | _ => Option.none
              match beforeOpt with
              | Option.none => (st, Option.none)
              | Option.some beforeRef =>
                match heapGet st beforeRef with
                | Option.none => (st, Option.none)
                | Option.some bo =>
                  match teamGetMember st team bo.userId with
                  | Option.none => (st, Option.some PyErr.attributeError)
                  | Option.some afterRef =>
                    let amount := (alGet fs "amount").getD Json.null
                    let st2 := heapSetField st afterRef "xp" amount
                    let st3 := addToMemberCache st2 afterRef
                    (dispatchEv st3 "member_update"
                      [EvArg.memberArg beforeRef, EvArg.memberArg afterRef], Option.none)
          | Option.some _ => (st, Option.some PyErr.typeError)
  | _ => (st, Option.some PyErr.attributeError)

/-- The `for key, val in data["userInfo"].items()` loop of
`TeamMemberUpdated` (lines 302-305): re-fetch `after` from the cache,
`setattr` the field, re-cache.  Returns the loop variable `after` from
the last iteration (`none` when the loop body never ran). -/
def tmuLoop (team uid : String) : GState → List (String × Json) → Option Nat →
    GState × Except PyErr (Option Nat)
  | st, [], acc => (st, Except.ok acc)
  | st, (k, v) :: rest, _ =>
    match teamGetMember st team uid with
    | Option.none => (st, Except.error PyErr.attributeError)
    | Option.some r =>
      tmuLoop team uid (addToMemberCache (heapSetField st r k v) r) rest (Option.some r)

/-- `TeamMemberUpdated` (lines 291-307): always build a raw `Member` from
the payload and fire `raw_member_update`; for a cached team and member,
apply each `userInfo` field onto the cached member object and dispatch
`member_update (before, after)` - `after` being the loop variable, which
is unbound (`UnboundLocalError`) when `userInfo` is empty. -/
def teamMemberUpdated (st : GState) (d : Json) : GState × Option PyErr :=
  match d with
  | Json.obj fs =>
    let ar := allocMember st (memberFromData fs)
    let st1 := dispatchEv ar.1 "raw_member_update" [EvArg.memberArg ar.2]
    match alGet fs "teamId" with
    | Option.none => (st1, Option.some PyErr.keyError)
    | Option.some tidV =>
      let teamOpt := match tidV with
        | Json.str tid => getTeam st1 tid
        | _ => Option.none
      match teamOpt with
      | Option.none => (st1, Option.none)
      | Option.some team =>
        match alGet fs "userId" with
        | Option.none => (st1, Option.some PyErr.keyError)
        | Option.some uidV =>
          let beforeOpt := match uidV with
            | Json.str uid => teamGetMember st1 team uid
            | _ => Option.none
          match uidV with
          | Json.str uid =>
            match beforeOpt with
            | Option.none => (st1, Option.none)
            | Option.some beforeRef =>
              match alGet fs "userInfo" with
              | Option.none => (st1, Option.some PyErr.keyError)
              | Option.some (Json.obj items) =>
                let res := tmuLoop team uid st1 items Option.none
                match res.2 with
                | Except.error e => (res.1, Option.some e)
                | Except.ok Option.none =>
                  (res.1, Option.some PyErr.unboundLocalError)
                | Except.ok (Option.some afterRef) =>
                  (dispatchEv res.1 "member_update"
                    [EvArg.memberArg beforeRef, EvArg.memberArg afterRef], Option.none)
              | Option.some _ => (st1, Option.some PyErr.attributeError)
          | _ => (st1, Option.none)
  | _ => (st, Option.some PyErr.attributeError)

/-- The per-entry loop of `teamRolesUpdates` (lines 316-324): skip
uncached members; otherwise re-fetch `after` via `before.id`, replace its
role list, re-cache, and collect the `(before, after)` pair. -/
def rolesLoop (team : String) : GState → List Json →
    GState × Except PyErr (List (Nat × Nat))
  | st, [] => (st, Except.ok [])
  | st, Json.null :: _ => (st, Except.error PyErr.typeError)
  | st, Json.bool _ :: _ => (st, Except.error PyErr.typeError)
  | st, Json.num _ :: _ => (st, Except.error PyErr.typeError)
  | st, Json.str _ :: _ => (st, Except.error PyErr.typeError)
  | st, Json.arr _ :: _ => (st, Except.error PyErr.typeError)
  | st, Json.obj efs :: rest =>
    match alGet efs "userId" with
    | Option.none => (st, Except.error PyErr.keyError)
    | Option.some Json.null => rolesLoop team st rest
    | Option.some (Json.bool _) => rolesLoop team st rest
    | Option.some (Json.num _) => rolesLoop team st rest
    | Option.some (Json.arr _) => rolesLoop team st rest
    | Option.some (Json.obj _) => rolesLoop team st rest
    | Option.some (Json.str uid) =>
      match teamGetMember st team uid with
      | Option.none => rolesLoop team st rest
      | Option.some beforeRef =>
        match heapGet st beforeRef with
        | Option.none => rolesLoop team st rest
        | Option.some bo =>
          match teamGetMember st team bo.userId with
          | Option.none => (st, Except.error PyErr.attributeError)
          | Option.some afterRef =>
            match alGet efs "roleIds" with
            | Option.none => (st, Except.error PyErr.keyError)
            | Option.some roleIds =>
              let res := rolesLoop team
                (addToMemberCache (heapSetField st afterRef "roles" roleIds) afterRef) rest
              (res.1,
               match res.2 with
               | Except.ok pairs => Except.ok ((beforeRef, afterRef) :: pairs)
               | Except.error e2 => Except.error e2)

/-- `teamRolesUpdates` (lines 309-327): process the whole batch first,
then fire one `member_update` per collected pair, in batch order. -/
def teamRolesUpdates (st : GState) (d : Json) : GState × Option PyErr :=
  match d with
  | Json.obj fs =>
    match alGet fs "teamId" with
    | Option.none => (st, Option.some PyErr.keyError)
    | Option.some tidV =>
      let teamOpt := match tidV with
        | Json.str tid => getTeam st tid
        | _ => Option.none
      match teamOpt with
      | Option.none => (st, Option.none)
      | Option.some team =>
        match alGet fs "memberRoleIds" with
        | Option.none => (st, Option.some PyErr.keyError)
        | Option.some (Json.arr entries) =>
          let res := rolesLoop team st entries
          match res.2 with
          | Except.error e => (res.1, Option.some e)
          | Except.ok pairs =>
            (pairs.foldl
              (fun s p => dispatchEv s "member_update"
                [EvArg.memberArg p.1, EvArg.memberArg p.2]) res.1,
             Option.none)
        | Option.some _ => (st, Option.some PyErr.typeError)
  | _ => (st, Option.some PyErr.typeError)

/-! ## Dispatch: `WebSocketEventParsers.get` and
`GuildedWebSocket.received_event` (gateway.py lines 96-130, 156-160). -/

/-- The event-handler methods defined on `WebSocketEventParsers`. -/
def handlerNames : List String :=
  ["ChatMessageCreated", "ChatChannelTyping", "ChatMessageDeleted",
   "ChatPinnedMessageCreated", "ChatPinnedMessageDeleted", "ChatMessageUpdated",
   "TeamXpSet", "TeamMemberUpdated", "teamRolesUpdates"]

/-- Non-handler attributes `getattr(self, event_name, None)` can find on a
`WebSocketEventParsers` instance: the `client` / `_state` instance
attributes and the `get` method.  Calling any of them with the event data
raises a `TypeError` (none is a coroutine function of one argument).
Attributes inherited from `object` (dunder names) are outside this model. -/
def parserOtherAttrs : List String := ["client", "_state", "get"]

/-- Run the named handler coroutine. -/
def runHandler (name : String) (st : GState) (d : Json) : GState × Option PyErr :=
  if name = "ChatMessageCreated" then chatMessageCreated st d
  else if name = "ChatChannelTyping" then chatChannelTyping st d
  else if name = "ChatMessageDeleted" then chatMessageDeleted st d
  else if name = "ChatPinnedMessageCreated" then chatPinnedMessageCreated st d
  else if name = "ChatPinnedMessageDeleted" then chatPinnedMessageDeleted st d
  else if name = "ChatMessageUpdated" then chatMessageUpdated st d
  else if name = "TeamXpSet" then teamXpSet st d
  else if name = "TeamMemberUpdated" then teamMemberUpdated st d
  else if name = "teamRolesUpdates" then teamRolesUpdates st d
  else (st, Option.none)

/-- `received_event` from the decoded payload on (gateway.py lines
105-130): a truthy `sid` key makes the frame a handshake - store `sid`
and `upgrades`, build the `Heartbeater` with `pingInterval / 1000`, send
the heartbeat payload `"2"`, start the heartbeater, return.  Otherwise
look up `data["type"]` / `data["data"]` (`KeyError` if absent) and
dispatch through `WebSocketEventParsers.get`: a handler coroutine is
awaited (exceptions are wrapped into `GuildedException`, reported via the
`error` event and re-raised); a non-handler attribute is called and
raises; an unknown name yields `None` and is silently ignored. -/
def handleData (st : GState) (data : Json) : GState × Option PyErr :=
  match data with
  | Json.obj fs =>
    if optTruthy (alGet fs "sid") then
      match alGet fs "sid" with
      | Option.none => (st, Option.some PyErr.keyError)
      | Option.some sidVal =>
        match alGet fs "upgrades" with
        | Option.none => (st, Option.some PyErr.keyError)
        | Option.some ups =>
          match alGet fs "pingInterval" with
          | Option.none => (st, Option.some PyErr.keyError)
          | Option.some (Json.num p) =>
            let hb : HBState :=
              { interval := (p : ℚ) / 1000, latency := LatVal.inf,
                stopEv := false, started := false }
            let st1 := { st with sid := Option.some sidVal, upgrades := ups,
                                 heartbeater := Option.some hb }
            let st2 := { st1 with sentPayloads := st1.sentPayloads ++ ["2"] }
            let st3 := { st2 with heartbeater := Option.some { hb with started := true } }
            (st3, Option.none)
          | Option.some _ => (st, Option.some PyErr.typeError)
    else
      match alGet fs "type" with
      | Option.none => (st, Option.some PyErr.keyError)
      | Option.some tVal =>
        match alGet fs "data" with
        | Option.none => (st, Option.some PyErr.keyError)
        | Option.some dataField =>
          match tVal with
          | Json.str name =>
            if name ∈ handlerNames then
              let res := runHandler name st dataField
              match res.2 with
              | Option.none => (res.1, Option.none)
              | Option.some err =>
                (dispatchEv res.1 "error" [EvArg.errArg (PyErr.guildedWrapped err)],
                 Option.some (PyErr.guildedWrapped err))
            else if name ∈ parserOtherAttrs then (st, Option.some PyErr.typeError)
            else (st, Option.none)
          | _ => (st, Option.some PyErr.typeError)
  | _ => (st, Option.some PyErr.attributeError)

/-- `received_event` from the raw text (gateway.py lines 96-103): a
digit-only payload (heartbeat acknowledgement) returns immediately;
otherwise fire `socket_raw_receive`, decode (decode errors propagate),
fire `socket_response`, and continue with the decoded payload. -/
def receivedEvent (st : GState) (raw : String) : GState × Option PyErr :=
  if pyStrIsDigit raw then (st, Option.none)
  else
    let st1 := dispatchEv st "socket_raw_receive" [EvArg.strArg raw]
    match fullEventParse raw with
    | Except.error e => (st1, Option.some e)
    | Except.ok data =>
      let st2 := dispatchEv st1 "socket_response" [EvArg.jsonArg data]
      handleData st2 data

/-- Process a sequence of decoded payloads in order, stopping at the
first exception (which aborts the receive loop). -/
def processAll (st : GState) : List Json → GState × Option PyErr
  | [] => (st, Option.none)
  | d :: rest =>
    let res := handleData st d
    match res.2 with
    | Option.none => processAll res.1 rest
    | Option.some e => (res.1, Option.some e)

/-- `GuildedWebSocket.latency` (gateway.py lines 50-56). -/
def wsLatency (st : GState) : LatVal :=
  match st.heartbeater with
  | Option.none => LatVal.inf
  | Option.some hb => hb.latency

/-- A freshly built connection before any frame: no session, no
heartbeater, given caches. -/
def initGState (maxM : Nat) : GState :=
  { sid := Option.none, upgrades := Json.arr [], heartbeater := Option.none,
    sentPayloads := [], maxMessages := maxM, messages := [], teams := [],
    memberHeap := [], nextRef := 0, teamMembers := [], channels := [],
    users := [], events := [] }

/-! ## `Heartbeater.run` (gateway.py lines 345-372)

The outer loop runs while `self._stop_ev.wait(self.interval)` is false;
each tick schedules one heartbeat send and waits on its future with
`f.result(10)`.  On `concurrent.futures.TimeoutError` the handler
increments `total` and then evaluates `sys._current_frames()[self._main_thread_id]`;
`Heartbeater.__init__` never assigns `_main_thread_id`, so the attribute
access raises `AttributeError`, which the inner `except KeyError` does not
catch; it propagates to the outer `except Exception`, which calls
`self.stop()`.  `log.warning` is therefore never reached. -/

/-- One observed outcome of `f.result(10)`. -/
inductive WaitRes where
  | completed : WaitRes
  | timedOut : WaitRes
  | sendExc : WaitRes

/-- Script for one outer-loop tick: whether the stop event was set by the
time of the `wait(interval)` call, and the successive `f.result(10)`
outcomes for this tick's send. -/
structure TickScript where
  stopAtWait : Bool
  sendWaits : List WaitRes

/-- What the inner `while True` wait loop does. -/
inductive InnerRes where
  | completed : InnerRes
  | raisedAttrError : InnerRes
  | raisedSendExc : InnerRes
  | neverReturns : InnerRes

/-- The inner wait loop (lines 352-369).  The first `TimeoutError` leads
to the `self._main_thread_id` attribute access, which raises out of the
loop; the recursion the code's `while True` intends is never re-entered,
and no warning is logged. -/
def innerWait : List WaitRes → InnerRes
  | [] => InnerRes.neverReturns
  | WaitRes.completed :: _ => InnerRes.completed
  | WaitRes.timedOut :: _ => InnerRes.raisedAttrError
  | WaitRes.sendExc :: _ => InnerRes.raisedSendExc

/-- Result of running the heartbeat thread over a tick script. -/
structure HBRunOut where
  state : HBState
  sendsStarted : Nat
  warningsLogged : List Nat
  hung : Bool

/-- The outer `while not self._stop_ev.wait(self.interval)` loop.  A tick
whose inner wait raises (either the missing-attribute error on timeout,
or an exception from the send itself) triggers the outer
`except Exception: self.stop()`, so the next `wait` observes the stop
event and the loop exits. -/
def hbLoop (hb : HBState) : List TickScript → HBRunOut
  | [] => ⟨hb, 0, [], false⟩
  | t :: ts =>
    if hb.stopEv || t.stopAtWait then ⟨hb, 0, [], false⟩
    else
      match innerWait t.sendWaits with
      | InnerRes.completed =>
        let out := hbLoop hb ts
        ⟨out.state, out.sendsStarted + 1, out.warningsLogged, out.hung⟩
      | InnerRes.raisedAttrError =>
        let out := hbLoop { hb with stopEv := true } ts
        ⟨out.state, out.sendsStarted + 1, out.warningsLogged, out.hung⟩
      | InnerRes.raisedSendExc =>
        let out := hbLoop { hb with stopEv := true } ts
        ⟨out.state, out.sendsStarted + 1, out.warningsLogged, out.hung⟩
      | InnerRes.neverReturns => ⟨hb, 1, [], true⟩

/-! ## Predicates and concrete fixtures used by the theorems -/

/-- The connection/session fields of the websocket object agree: same
`sid`, `upgrades` and `_heartbeater`. -/
def sessSame (a b : GState) : Prop :=
  b.sid = a.sid ∧ b.upgrades = a.upgrades ∧ b.heartbeater = a.heartbeater

/-- A decoded payload that is not a handshake: its `sid` key (if any) is
falsy.  Non-dict payloads cannot enter the handshake branch either. -/
def sidFalsy : Json → Prop
  | Json.obj fs => optTruthy (alGet fs "sid") = false
  | _ => True

/-- The member cache is consistent: every cached reference points at a
live member object whose id is the key it is cached under. -/
def memberCacheOk (st : GState) : Prop :=
  ∀ tid uid r, teamGetMember st tid uid = Option.some r →
    ∃ m, heapGet st r = Option.some m ∧ m.userId = uid

/-- Every `member_update` dispatch in the list carries the same heap
reference as both `before` and `after`. -/
def memberUpdatePairsSelf (evs : List Ev) : Prop :=
  ∀ e ∈ evs, e.name = "member_update" →
    ∃ x, e.args = [EvArg.memberArg x, EvArg.memberArg x]

/-- A role-update batch entry the handler can process: a dict carrying a
string `userId` and a `roleIds` value. -/
def roleEntryWF : Json → Prop
  | Json.obj efs =>
    (∃ u, alGet efs "userId" = Option.some (Json.str u)) ∧
      (alGet efs "roleIds").isSome = true
  | _ => False

/-- A message with only an id, for cache experiments. -/
def mkMsg (i : String) : MsgObj :=
  { msgId := i, teamId := Option.none, webhookId := Json.null, raw := Json.null }

/-- A cached member used by the concrete scenarios. -/
def exMember : MemberObj := { userId := "u1", teamId := "t1", fields := [] }

/-- A connection state with one cached team `t1` and one cached member
`u1` living at heap reference 0. -/
def exSt : GState :=
  { sid := Option.none, upgrades := Json.arr [], heartbeater := Option.none,
    sentPayloads := [], maxMessages := 1000, messages := [], teams := ["t1"],
    memberHeap := [(0, exMember)], nextRef := 1,
    teamMembers := [("t1", [("u1", 0)])], channels := [], users := [],
    events := [] }

/-- A `TeamMemberUpdated` payload whose `userInfo` batch is empty. -/
def c7EmptyPayload : Json :=
  Json.obj [("teamId", Json.str "t1"), ("userId", Json.str "u1"),
            ("userInfo", Json.obj [])]

/-- A `TeamMemberUpdated` payload carrying one profile field. -/
def c7OnePayload : Json :=
  Json.obj [("teamId", Json.str "t1"), ("userId", Json.str "u1"),
            ("userInfo", Json.obj [("nickname", Json.str "neo")])]

/-- A handshake payload with `sid="abc123"` and `pingInterval=25000`. -/
def handshakePayload : Json :=
  Json.obj [("sid", Json.str "abc123"), ("upgrades", Json.arr []),
            ("pingInterval", Json.num 25000)]

/-- A heartbeater as built by the handshake for 25000 ms, after start. -/
def hbStarted : HBState :=
  { interval := 25, latency := LatVal.inf, stopEv := false, started := true }

/-- A tick script whose first send blocks past the 10-second wait once,
then completes; a second tick follows. -/
def hbTimeoutScript : List TickScript :=
  [⟨false, [WaitRes.timedOut, WaitRes.completed]⟩, ⟨false, [WaitRes.completed]⟩]

/-- The state right after the handshake payload is handled on a fresh
connection. -/
def c5AfterHandshake : GState :=
  (handleData (initGState 1000) handshakePayload).1

/-- ... after the heartbeat thread then ran one tick whose send
completed ... -/
def c5AfterRun : GState :=
  { c5AfterHandshake with
      heartbeater := Option.some (hbLoop hbStarted [⟨false, [WaitRes.completed]⟩]).state }

/-- ... and the server's heartbeat acknowledgement frame `"3"` was then
received, completing a full heartbeat round trip. -/
def c5Final : GState := (receivedEvent c5AfterRun "3").1

/-! ## Basic lemmas about the dict and strip primitives -/

theorem alGet_alSet_self {K V : Type} [DecidableEq K] :
    ∀ (l : List (K × V)) (k : K) (v : V), alGet (alSet l k v) k = Option.some v
  | [], k, v => by simp [alSet, alGet]
  | (k2, v2) :: rest, k, v => by
    rw [alSet]
    by_cases h : k2 = k
    · rw [if_pos h, alGet, if_pos rfl]
    · rw [if_neg h, alGet, if_neg h]
      exact alGet_alSet_self rest k v

theorem alGet_alSet_ne {K V : Type} [DecidableEq K] :
    ∀ (l : List (K × V)) (k k2 : K) (v : V), k2 ≠ k →
      alGet (alSet l k v) k2 = alGet l k2
  | [], k, k2, v, h => by
    simp only [alSet, alGet]
    rw [if_neg (fun hh => h hh.symm)]
  | (k3, v3) :: rest, k, k2, v, h => by
    by_cases h3 : k3 = k
    · subst h3
      simp only [alSet, if_pos rfl, alGet]
      rw [if_neg (fun hh => h hh.symm), if_neg (fun hh => h hh.symm)]
    · simp only [alSet, if_neg h3, alGet]
      by_cases h4 : k3 = k2
      · rw [if_pos h4, if_pos h4]
      · rw [if_neg h4, if_neg h4]
        exact alGet_alSet_ne rest k k2 v h

theorem alGet_append_of_isSome {K V : Type} [DecidableEq K] :
    ∀ (l1 l2 : List (K × V)) (k : K), (alGet l1 k).isSome →
      alGet (l1 ++ l2) k = alGet l1 k
  | [], _, k, h => by simp [alGet] at h
  | (k2, v2) :: rest, l2, k, h => by
    by_cases hk : k2 = k
    · simp [alGet, hk]
    · simp only [alGet, if_neg hk] at h ⊢
      exact alGet_append_of_isSome rest l2 k h

theorem alSet_fresh {K V : Type} [DecidableEq K] :
    ∀ (l : List (K × V)) (k : K) (v : V), k ∉ l.map Prod.fst →
      alSet l k v = l ++ [(k, v)]
  | [], k, v, _ => rfl
  | (k2, v2) :: rest, k, v, h => by
    simp only [List.map_cons, List.mem_cons, not_or] at h
    rw [alSet, if_neg (fun hh => h.1 hh.symm), alSet_fresh rest k v h.2]
    simp

theorem removeFirst_head (c : Char) (cs : List Char) :
    removeFirst c (c :: cs) = cs := by
  simp [removeFirst]

/-- The strip loop with equal iterator and current string is exactly
`dropWhile isDigit`: each digit step removes the current head, keeping
iterator and current string aligned. -/
theorem stripLoop_self : ∀ l : List Char, stripLoop l l = l.dropWhile Char.isDigit
  | [] => rfl
  | c :: cs => by
    by_cases h : c.isDigit
    · rw [stripLoop, if_pos h, removeFirst_head, stripLoop_self cs,
        List.dropWhile_cons_of_pos h]
    · rw [stripLoop, if_neg h, List.dropWhile_cons_of_neg h]

theorem stripTypeCode_eq_dropWhile (s : String) :
    stripTypeCode s = String.mk (s.data.dropWhile Char.isDigit) := by
  rw [stripTypeCode, stripLoop_self]

theorem dropWhile_all_append (p : Char → Bool) :
    ∀ (l1 l2 : List Char), l1.all p = true →
      List.dropWhile p (l1 ++ l2) = List.dropWhile p l2
  | [], l2, _ => rfl
  | c :: cs, l2, h => by
    simp only [List.all_cons, Bool.and_eq_true] at h
    rw [List.cons_append, List.dropWhile_cons_of_pos h.1]
    exact dropWhile_all_append p cs l2 h.2

/-! ## Claim C9 -/

/-- C9: for every string of the form `<one-or-more-digits><valid JSON>`,
decode strips exactly the leading run of decimal-digit characters and
parses the remainder as JSON (first conjunct: the strip phase equals
`dropWhile isDigit` on *every* input; second conjunct: when the remainder
is valid JSON whose first character is not a digit, `_full_event_parse`
is exactly `loads` of that remainder followed by `_pretty_event`); a
string consisting only of digits is consumed by `received_event`'s
`isdigit` guard as a no-op Control frame (third conjunct). -/
theorem C9_decode_strips_leading_digits :
    (∀ s : String, stripTypeCode s = String.mk (s.data.dropWhile Char.isDigit)) ∧
    (∀ (ds r : String) (v : Json), pyStrIsDigit ds = true →
        (∀ c, r.data.head? = Option.some c → c.isDigit = false) →
        loads r = Option.some v →
        fullEventParse (ds ++ r) = prettyEvent v) ∧
    (∀ (st : GState) (s : String), pyStrIsDigit s = true →
        receivedEvent st s = (st, Option.none)) := by
  refine ⟨stripTypeCode_eq_dropWhile, ?_, ?_⟩
  · intro ds r v hds hr hl
    have hall : ds.data.all Char.isDigit = true := by
      unfold pyStrIsDigit at hds
      exact ((Bool.and_eq_true _ _).mp hds).2
    have hdrop : (ds ++ r).data.dropWhile Char.isDigit = r.data := by
      rw [String.data_append, dropWhile_all_append _ _ _ hall]
      cases hcase : r.data with
      | nil => rfl
      | cons c cs =>
        have hc : c.isDigit = false := hr c (by rw [hcase]; rfl)
        rw [List.dropWhile_cons_of_neg (by simp [hc])]
    have hstrip : stripTypeCode (ds ++ r) = r := by
      rw [stripTypeCode_eq_dropWhile, hdrop]
    simp only [fullEventParse, hstrip, hl]
  · intro st s h
    rw [receivedEvent, if_pos h]

/-- Witness for C9 at `"42" ++ "[1]"` and the digit-only string `"33"`. -/
theorem C9_witness :
    fullEventParse ("42" ++ "[1]") = prettyEvent (Json.arr [Json.num 1]) ∧
    receivedEvent (initGState 5) "33" = (initGState 5, Option.none) := by
  constructor
  · exact C9_decode_strips_leading_digits.2.1 "42" "[1]" (Json.arr [Json.num 1])
      (by decide)
      (fun c hc => by
        have h2 := Option.some.inj hc
        subst h2
        decide)
      rfl
  · exact C9_decode_strips_leading_digits.2.2 (initGState 5) "33" (by decide)

/-! ## Claim C1 (corrected) -/

/-- C1 amended: decoding the string produced by `encode("foo", {"a":1})`
yields the payload object `{"a":1}` unchanged - `_pretty_event` takes the
array's second element, sees no `type` key there and returns it as-is, so
the event name is discarded rather than recovered. -/
theorem C1_roundtrip_amended :
    fullEventParse (encode "foo" (Json.obj [("a", Json.num 1)])) =
      Except.ok (Json.obj [("a", Json.num 1)]) := rfl

/-- C1 counterexample: the claimed round trip fails - the decode of
`encode("foo", {"a":1})` is not the Event frame
`{type: "foo", data: {"a":1}}`. -/
theorem C1_roundtrip_counterexample :
    fullEventParse (encode "foo" (Json.obj [("a", Json.num 1)])) ≠
      Except.ok (Json.obj [("type", Json.str "foo"),
                           ("data", Json.obj [("a", Json.num 1)])]) := by
  intro h
  rw [show fullEventParse (encode "foo" (Json.obj [("a", Json.num 1)])) =
        Except.ok (Json.obj [("a", Json.num 1)]) from rfl] at h
  simp at h

/-! ## Claim C2 (code bug) -/

/-- C2 evaluation at the failing input: a 429 response carrying
`Retry-After: 2` makes `request` hand the header *string* to
`asyncio.sleep`, which raises `TypeError` - no sleep completes and the
request is never resubmitted, the error escaping to the caller (first
conjunct).  The header-absent path does retry after a 5-second sleep
(second conjunct), and a 404 raises the mapped error without retrying
(third conjunct). -/
theorem C2_rate_limit_evaluation :
    performRun [⟨429, Option.some "2", Json.null⟩,
                ⟨200, Option.none, Json.str "ok"⟩] = ([], ReqOutcome.typeError) ∧
    performRun [⟨429, Option.none, Json.null⟩,
                ⟨200, Option.none, Json.str "ok"⟩]
      = ([(5 : ℚ)], ReqOutcome.ok (Option.some (Json.str "ok"))) ∧
    performRun [⟨404, Option.none, Json.null⟩] = ([], ReqOutcome.httpError 404) :=
  ⟨rfl, rfl, rfl⟩

/-! ## Claim C4 (code bug) -/

/-- C4 evaluation at the failing input: when the first `f.result(10)`
wait times out, the supervisor does not log an escalating warning and
does not keep waiting - the `self._main_thread_id` attribute access
raises `AttributeError` (the attribute is never initialized), the outer
`except Exception` calls `stop()`, and the loop exits at the next wait:
the stop event is set, no warning was logged, and only the one send was
ever started (the second scripted tick is never reached). -/
theorem C4_heartbeat_timeout_evaluation :
    (hbLoop hbStarted hbTimeoutScript).state.stopEv = true ∧
    (hbLoop hbStarted hbTimeoutScript).warningsLogged = [] ∧
    (hbLoop hbStarted hbTimeoutScript).sendsStarted = 1 :=
  ⟨rfl, rfl, rfl⟩

/-! ## Claim C6: the bounded message cache -/

theorem evictOldest_of_le (maxM : Nat) :
    ∀ c : List (String × MsgObj), c.length ≤ maxM → evictOldest maxM c = c
  | [], _ => rfl
  | x :: xs, h => by
    rw [evictOldest, if_neg (by omega)]

theorem evictOldest_length (maxM : Nat) :
    ∀ c : List (String × MsgObj), (evictOldest maxM c).length ≤ maxM
  | [] => by simp [evictOldest]
  | x :: xs => by
    rw [evictOldest]
    by_cases h : (x :: xs).length > maxM
    · rw [if_pos h]
      exact evictOldest_length maxM xs
    · rw [if_neg h]
      omega

theorem evictOldest_of_succ (maxM : Nat) (c : List (String × MsgObj))
    (h : c.length = maxM + 1) : evictOldest maxM c = c.tail := by
  cases c with
  | nil => simp at h
  | cons x xs =>
    rw [evictOldest, if_pos (by omega)]
    exact evictOldest_of_le maxM xs (by simp at h; omega)

theorem foldAdd_of_le (N : Nat) :
    ∀ ids : List String, ids.Nodup → ids.length ≤ N →
      ids.foldl (fun c i => addToMessageCache N c (mkMsg i)) []
        = ids.map (fun i => (i, mkMsg i)) := by
  intro ids
  induction ids using List.reverseRecOn with
  | nil => intro _ _; rfl
  | append_singleton l a ih =>
    intro hnd hlen
    have hl : l.Nodup := (List.nodup_append.mp hnd).1
    have ha : a ∉ l := by
      intro hm
      have := (List.nodup_append.mp hnd).2.2
      exact this hm (by simp)
    have hlenl : l.length ≤ N := by simp at hlen; omega
    rw [List.foldl_append, ih hl hlenl]
    simp only [List.foldl_cons, List.foldl_nil]
    have hfresh : (mkMsg a).msgId ∉ (l.map (fun i => (i, mkMsg i))).map Prod.fst := by
      simp [mkMsg, ha]
    rw [addToMessageCache, alSet_fresh _ _ _ hfresh,
        evictOldest_of_le N _ (by simp at hlen ⊢; omega)]
    simp [mkMsg]

/-- C6: after every insert the message cache holds at most `N` entries
(first conjunct, for every starting state); inserting a fresh id into a
cache below the bound appends it with no eviction (second conjunct);
inserting a fresh id into a cache exactly at the bound removes exactly
the single oldest-inserted entry, the head (third conjunct); and
inserting `N+1` distinct ids into an empty cache leaves exactly the `N`
later ids, the first-inserted id evicted and insertion order preserved
(fourth conjunct). -/
theorem C6_bounded_cache_invariant :
    (∀ (N : Nat) (c : List (String × MsgObj)) (m : MsgObj),
        (addToMessageCache N c m).length ≤ N) ∧
    (∀ (N : Nat) (c : List (String × MsgObj)) (m : MsgObj),
        m.msgId ∉ c.map Prod.fst → c.length < N →
        addToMessageCache N c m = c ++ [(m.msgId, m)]) ∧
    (∀ (N : Nat) (c : List (String × MsgObj)) (m : MsgObj),
        m.msgId ∉ c.map Prod.fst → c.length = N →
        addToMessageCache N c m = (c ++ [(m.msgId, m)]).tail) ∧
    (∀ (N : Nat) (ids : List String), ids.Nodup → ids.length = N + 1 →
        ids.foldl (fun c i => addToMessageCache N c (mkMsg i)) []
          = (ids.drop 1).map (fun i => (i, mkMsg i))) := by
  refine ⟨?_, ?_, ?_, ?_⟩
  · intro N c m
    exact evictOldest_length N _
  · intro N c m hfresh hlt
    rw [addToMessageCache, alSet_fresh _ _ _ hfresh,
        evictOldest_of_le N _ (by simp; omega)]
  · intro N c m hfresh hlen
    rw [addToMessageCache, alSet_fresh _ _ _ hfresh,
        evictOldest_of_succ N _ (by simp [hlen])]
  · intro N ids hnd hlen
    rcases List.eq_nil_or_concat ids with hnil | ⟨L, b, hcat⟩
    · rw [hnil] at hlen; simp at hlen
    · rw [List.concat_eq_append] at hcat
      subst hcat
      have hL : L.Nodup := (List.nodup_append.mp hnd).1
      have hb : b ∉ L := by
        intro hm
        exact (List.nodup_append.mp hnd).2.2 hm (by simp)
      have hLlen : L.length = N := by simp at hlen; omega
      rw [List.foldl_append, foldAdd_of_le N L hL (by omega)]
      simp only [List.foldl_cons, List.foldl_nil]
      have hfresh : (mkMsg b).msgId ∉ (L.map (fun i => (i, mkMsg i))).map Prod.fst := by
        simp [mkMsg, hb]
      rw [addToMessageCache, alSet_fresh _ _ _ hfresh,
          evictOldest_of_succ N _ (by simp [hLlen])]
      cases L with
      | nil => simp
      | cons x xs => simp [mkMsg]

/-- Witness for C6 at `N = 2` with ids `a`, `b`, `c`. -/
theorem C6_witness :
    addToMessageCache 2 [("a", mkMsg "a")] (mkMsg "b")
      = [("a", mkMsg "a"), ("b", mkMsg "b")] ∧
    addToMessageCache 2 [("a", mkMsg "a"), ("b", mkMsg "b")] (mkMsg "c")
      = ([("a", mkMsg "a"), ("b", mkMsg "b"), ("c", mkMsg "c")]).tail ∧
    ["a", "b", "c"].foldl (fun c i => addToMessageCache 2 c (mkMsg i)) []
      = (["a", "b", "c"].drop 1).map (fun i => (i, mkMsg i)) := by
  refine ⟨?_, ?_, ?_⟩
  · have h := C6_bounded_cache_invariant.2.1 2 [("a", mkMsg "a")] (mkMsg "b")
      (by simp [mkMsg]) (by simp)
    simpa [mkMsg] using h
  · exact C6_bounded_cache_invariant.2.2.1 2 [("a", mkMsg "a"), ("b", mkMsg "b")]
      (mkMsg "c") (by simp [mkMsg]) (by simp)
  · exact C6_bounded_cache_invariant.2.2.2 2 ["a", "b", "c"] (by decide) (by decide)

/-! ## Session-field preservation: only the handshake branch of
`received_event` touches `sid`, `upgrades` and `_heartbeater`. -/

theorem sessSame_refl (a : GState) : sessSame a a := ⟨rfl, rfl, rfl⟩

theorem sessSame_trans {a b c : GState} (h1 : sessSame a b) (h2 : sessSame b c) :
    sessSame a c :=
  ⟨h2.1.trans h1.1, h2.2.1.trans h1.2.1, h2.2.2.trans h1.2.2⟩

theorem sessSame_heapSetField (st : GState) (r : Nat) (k : String) (v : Json) :
    sessSame st (heapSetField st r k v) := by
  rw [heapSetField]
  repeat' split
  all_goals exact ⟨rfl, rfl, rfl⟩

theorem sessSame_addToMemberCache (st : GState) (r : Nat) :
    sessSame st (addToMemberCache st r) := by
  rw [addToMemberCache]
  repeat' split
  all_goals exact ⟨rfl, rfl, rfl⟩

theorem sessSame_tmuLoop (team uid : String) :
    ∀ (items : List (String × Json)) (st : GState) (acc : Option Nat),
      sessSame st (tmuLoop team uid st items acc).1
  | [], st, acc => sessSame_refl st
  | (k, v) :: rest, st, acc => by
    rw [tmuLoop]
    cases teamGetMember st team uid with
    | none => exact sessSame_refl st
    | some r =>
      exact sessSame_trans
        (sessSame_trans (sessSame_heapSetField st r k v)
          (sessSame_addToMemberCache _ r))
        (sessSame_tmuLoop team uid rest _ (Option.some r))

theorem sessSame_rolesLoop (team : String) :
    ∀ (entries : List Json) (st : GState), sessSame st (rolesLoop team st entries).1
  | [], st => sessSame_refl st
  | Json.null :: _, st => sessSame_refl st
  | Json.bool _ :: _, st => sessSame_refl st
  | Json.num _ :: _, st => sessSame_refl st
  | Json.str _ :: _, st => sessSame_refl st
  | Json.arr _ :: _, st => sessSame_refl st
  | Json.obj efs :: rest, st => by
    rw [rolesLoop]
    repeat' split
    all_goals first
      | exact sessSame_refl st
      | exact sessSame_rolesLoop team rest st
      | exact sessSame_trans
          (sessSame_trans (sessSame_heapSetField _ _ _ _)
            (sessSame_addToMemberCache _ _))
          (sessSame_rolesLoop team rest _)

theorem sessSame_foldlDispatch (nm : String) (f : Nat × Nat → List EvArg) :
    ∀ (pairs : List (Nat × Nat)) (st : GState),
      sessSame st (pairs.foldl (fun s p => dispatchEv s nm (f p)) st)
  | [], st => sessSame_refl st
  | p :: rest, st => by
    rw [List.foldl_cons]
    exact sessSame_trans (⟨rfl, rfl, rfl⟩ : sessSame st (dispatchEv st nm (f p)))
      (sessSame_foldlDispatch nm f rest _)

theorem sessSame_chatMessageCreated (st : GState) (d : Json) :
    sessSame st (chatMessageCreated st d).1 := by
  cases d <;> simp only [chatMessageCreated] <;>
    first
      | exact sessSame_refl st
      | (repeat' split) <;> exact ⟨rfl, rfl, rfl⟩

theorem sessSame_chatChannelTyping (st : GState) (d : Json) :
    sessSame st (chatChannelTyping st d).1 := by
  cases d <;> simp only [chatChannelTyping] <;>
    first
      | exact sessSame_refl st
      | (repeat' split) <;> exact ⟨rfl, rfl, rfl⟩

theorem sessSame_chatMessageDeleted (st : GState) (d : Json) :
    sessSame st (chatMessageDeleted st d).1 := by
  cases d <;> simp only [chatMessageDeleted] <;>
    first
      | exact sessSame_refl st
      | (repeat' split) <;> exact ⟨rfl, rfl, rfl⟩

theorem sessSame_chatPinnedMessageCreated (st : GState) (d : Json) :
    sessSame st (chatPinnedMessageCreated st d).1 := by
  cases d <;> simp only [chatPinnedMessageCreated] <;>
    first
      | exact sessSame_refl st
      | (repeat' split) <;> exact ⟨rfl, rfl, rfl⟩

theorem sessSame_chatPinnedMessageDeleted (st : GState) (d : Json) :
    sessSame st (chatPinnedMessageDeleted st d).1 := by
  cases d <;> simp only [chatPinnedMessageDeleted] <;>
    first
      | exact sessSame_refl st
      | (repeat' split) <;> exact ⟨rfl, rfl, rfl⟩

theorem sessSame_chatMessageUpdated (st : GState) (d : Json) :
    sessSame st (chatMessageUpdated st d).1 := by
  cases d <;> simp only [chatMessageUpdated] <;>
    first
      | exact sessSame_refl st
      | (repeat' split) <;> exact ⟨rfl, rfl, rfl⟩

theorem sessSame_teamXpSet (st : GState) (d : Json) :
    sessSame st (teamXpSet st d).1 := by
  cases d <;> simp only [teamXpSet] <;>
    first
      | exact sessSame_refl st
      | (repeat' split) <;>
        first
          | exact ⟨rfl, rfl, rfl⟩
          | exact sessSame_trans (sessSame_heapSetField _ _ _ _)
              (sessSame_addToMemberCache _ _)

theorem sessSame_teamMemberUpdated (st : GState) (d : Json) :
    sessSame st (teamMemberUpdated st d).1 := by
  cases d <;> simp only [teamMemberUpdated] <;>
    first
      | exact sessSame_refl st
      | (repeat' split) <;>
        first
          | exact ⟨rfl, rfl, rfl⟩
          | exact sessSame_tmuLoop _ _ _ _ _

theorem sessSame_teamRolesUpdates (st : GState) (d : Json) :
    sessSame st (teamRolesUpdates st d).1 := by
  cases d <;> simp only [teamRolesUpdates] <;>
    first
      | exact sessSame_refl st
      | (repeat' split) <;>
        first
          | exact ⟨rfl, rfl, rfl⟩
          | exact sessSame_rolesLoop _ _ _
          | exact sessSame_trans (sessSame_rolesLoop _ _ _)
              (sessSame_foldlDispatch _ _ _ _)

theorem sessSame_runHandler (name : String) (st : GState) (d : Json) :
    sessSame st (runHandler name st d).1 := by
  rw [runHandler]
  repeat' split
  · exact sessSame_chatMessageCreated st d
  · exact sessSame_chatChannelTyping st d
  · exact sessSame_chatMessageDeleted st d
  · exact sessSame_chatPinnedMessageCreated st d
  · exact sessSame_chatPinnedMessageDeleted st d
  · exact sessSame_chatMessageUpdated st d
  · exact sessSame_teamXpSet st d
  · exact sessSame_teamMemberUpdated st d
  · exact sessSame_teamRolesUpdates st d
  · exact sessSame_refl st

theorem sessSame_handleData (st : GState) (d : Json) (h : sidFalsy d) :
    sessSame st (handleData st d).1 := by
  cases d with
  | obj fs =>
    have hfalsy : optTruthy (alGet fs "sid") = false := h
    simp only [handleData, hfalsy, Bool.false_eq_true, if_false]
    repeat' split
    all_goals first
      | exact sessSame_refl st
      | exact sessSame_runHandler _ st _
  | null => exact sessSame_refl st
  | bool b => exact sessSame_refl st
  | num n => exact sessSame_refl st
  | str s => exact sessSame_refl st
  | arr l => exact sessSame_refl st

theorem sessSame_processAll (st : GState) :
    ∀ frames : List Json, (∀ d ∈ frames, sidFalsy d) →
      sessSame st (processAll st frames).1
  | [], _ => sessSame_refl st
  | d :: rest, h => by
    rw [processAll]
    have h1 : sessSame st (handleData st d).1 :=
      sessSame_handleData st d (h d (by simp))
    cases (handleData st d).2 with
    | none =>
      exact sessSame_trans h1
        (sessSame_processAll _ rest (fun d2 hd2 => h d2 (by simp [hd2])))
    | some e => exact h1

/-! ## Claim C3: the handshake -/

/-- C3: on a fresh connection (no session, no heartbeater), a decoded
payload carrying a truthy `sid` key is handled by the handshake branch:
no exception, `sid` and `upgrades` stored, the heartbeater created with
`pingInterval / 1000` seconds and started, the heartbeat acknowledgement
`"2"` sent - and no event dispatched during that step, i.e. the
supervisor is running before any Event frame is processed.  Processing
any further frames without a truthy `sid` never changes the session
fields (created exactly once, immutable afterwards).  `pingInterval =
25000` yields 25.0 seconds. -/
theorem C3_handshake_once
    (st : GState) (fs : List (String × Json)) (sidVal ups : Json) (p : Int)
    (h0 : st.sid = Option.none) (h1 : st.heartbeater = Option.none)
    (hs : alGet fs "sid" = Option.some sidVal) (hst : truthy sidVal = true)
    (hu : alGet fs "upgrades" = Option.some ups)
    (hp : alGet fs "pingInterval" = Option.some (Json.num p))
    (rest : List Json) (hr : ∀ d ∈ rest, sidFalsy d) :
    (handleData st (Json.obj fs)).2 = Option.none ∧
    (handleData st (Json.obj fs)).1.sid = Option.some sidVal ∧
    (handleData st (Json.obj fs)).1.upgrades = ups ∧
    (handleData st (Json.obj fs)).1.heartbeater
      = Option.some ⟨(p : ℚ) / 1000, LatVal.inf, false, true⟩ ∧
    (handleData st (Json.obj fs)).1.sentPayloads = st.sentPayloads ++ ["2"] ∧
    (handleData st (Json.obj fs)).1.events = st.events ∧
    (processAll (handleData st (Json.obj fs)).1 rest).1.sid = Option.some sidVal ∧
    (processAll (handleData st (Json.obj fs)).1 rest).1.upgrades = ups ∧
    (processAll (handleData st (Json.obj fs)).1 rest).1.heartbeater
      = Option.some ⟨(p : ℚ) / 1000, LatVal.inf, false, true⟩ ∧
    ((25000 : ℚ) / 1000 = 25) := by
  have htruthy : optTruthy (alGet fs "sid") = true := by rw [hs]; exact hst
  have hstep : handleData st (Json.obj fs) =
      ({ st with sid := Option.some sidVal, upgrades := ups,
                 heartbeater := Option.some ⟨(p : ℚ) / 1000, LatVal.inf, false, true⟩,
                 sentPayloads := st.sentPayloads ++ ["2"] }, Option.none) := by
    simp only [handleData, hs, hu, hp, optTruthy, hst, if_true]
  have hsess := sessSame_processAll (handleData st (Json.obj fs)).1 rest hr
  refine ⟨by rw [hstep], by rw [hstep], by rw [hstep], by rw [hstep], by rw [hstep],
          by rw [hstep], ?_, ?_, ?_, by norm_num⟩
  · rw [hsess.1, hstep]
  · rw [hsess.2.1, hstep]
  · rw [hsess.2.2, hstep]

/-- Witness for C3: a fresh connection, the `sid="abc123"` /
`pingInterval=25000` handshake, one later event frame. -/
theorem C3_witness :
    (handleData (initGState 1000) handshakePayload).1.heartbeater
      = Option.some ⟨(25000 : ℚ) / 1000, LatVal.inf, false, true⟩ ∧
    (processAll (handleData (initGState 1000) handshakePayload).1
        [Json.obj [("type", Json.str "UnknownEvent"), ("data", Json.null)]]).1.heartbeater
      = Option.some ⟨(25000 : ℚ) / 1000, LatVal.inf, false, true⟩ ∧
    ((25000 : ℚ) / 1000 = 25) := by
  have h := C3_handshake_once (initGState 1000)
    [("sid", Json.str "abc123"), ("upgrades", Json.arr []),
     ("pingInterval", Json.num 25000)]
    (Json.str "abc123") (Json.arr []) 25000 rfl rfl rfl (by decide) rfl rfl
    [Json.obj [("type", Json.str "UnknownEvent"), ("data", Json.null)]]
    (by
      intro d hd
      simp only [List.mem_singleton] at hd
      subst hd
      exact rfl)
  exact ⟨h.2.2.2.1, h.2.2.2.2.2.2.2.2.1, h.2.2.2.2.2.2.2.2.2⟩

/-! ## Claim C5 (corrected): latency -/

theorem hbLoop_latency (hb : HBState) :
    ∀ script : List TickScript, (hbLoop hb script).state.latency = hb.latency
  | [] => rfl
  | t :: ts => by
    rw [hbLoop]
    repeat' split
    all_goals first
      | rfl
      | exact hbLoop_latency hb ts
      | exact hbLoop_latency _ ts

theorem handleData_latency (st : GState) (d : Json) (h : wsLatency st = LatVal.inf) :
    wsLatency (handleData st d).1 = LatVal.inf := by
  cases d with
  | obj fs =>
    by_cases hsid : optTruthy (alGet fs "sid") = true
    · simp only [handleData, hsid, if_true]
      repeat' split
      all_goals first
        | exact h
        | rfl
    · have hfalse : optTruthy (alGet fs "sid") = false := by
        cases hb : optTruthy (alGet fs "sid")
        · rfl
        · exact absurd hb hsid
      have hss := sessSame_handleData st (Json.obj fs) hfalse
      unfold wsLatency at h ⊢
      rw [hss.2.2]
      exact h
  | null => exact h
  | bool b => exact h
  | num n => exact h
  | str s => exact h
  | arr l => exact h

theorem processAll_latency :
    ∀ (frames : List Json) (st : GState), wsLatency st = LatVal.inf →
      wsLatency (processAll st frames).1 = LatVal.inf
  | [], st, h => h
  | d :: rest, st, h => by
    simp only [processAll]
    cases (handleData st d).2 with
    | none => exact processAll_latency rest _ (handleData_latency st d h)
    | some e => exact handleData_latency st d h

/-- C5 amended: the latency attribute reads the infinite sentinel before
any round trip *and always* - before a heartbeater exists, after any
sequence of frames is processed, and after any run of the heartbeat
thread, whose code never stores a measurement; in particular it is never
zero and never a measured duration. -/
theorem C5_latency_amended
    (st : GState) (hst : wsLatency st = LatVal.inf) (frames : List Json)
    (hb : HBState) (hlat : hb.latency = LatVal.inf) (script : List TickScript)
    (m : Nat) :
    wsLatency (initGState m) = LatVal.inf ∧
    wsLatency (processAll st frames).1 = LatVal.inf ∧
    (hbLoop hb script).state.latency = LatVal.inf ∧
    LatVal.isMeasured LatVal.inf = false :=
  ⟨rfl, processAll_latency frames st hst, (hbLoop_latency hb script).trans hlat, rfl⟩

/-- Witness for C5's amended statement at a concrete run. -/
theorem C5_latency_amended_witness :
    wsLatency (processAll (initGState 7) [handshakePayload]).1 = LatVal.inf ∧
    (hbLoop hbStarted [⟨false, [WaitRes.completed]⟩]).state.latency = LatVal.inf :=
  ⟨(C5_latency_amended (initGState 7) rfl [handshakePayload] hbStarted rfl
      [⟨false, [WaitRes.completed]⟩] 7).2.1,
   (C5_latency_amended (initGState 7) rfl [handshakePayload] hbStarted rfl
      [⟨false, [WaitRes.completed]⟩] 7).2.2.1⟩

/-- C5 counterexample: after a handshake, a completed heartbeat send and
the received acknowledgement frame `"3"` - a completed round trip -
`GuildedWebSocket.latency` still reads the infinite sentinel, not the
round trip's wall-clock duration (no finite measurement exists). -/
theorem C5_latency_counterexample :
    wsLatency c5Final = LatVal.inf ∧ (wsLatency c5Final).isMeasured = false :=
  ⟨rfl, rfl⟩

/-! ## Claim C8 (corrected): unrecognized event types -/

/-- C8 amended: an Event frame whose type string names *no attribute at
all* of the parser object (none of the nine handler methods, nor `get` /
`client` / `_state`; Python object dunder attributes are outside the
model and excluded by the hypotheses) is a silent no-op: `getattr`
returns `None`, `received_event` returns, no exception is raised, no
event is fired and the state - caches included - is unchanged. -/
theorem C8_unrecognized_type_amended
    (st : GState) (fs : List (String × Json)) (name : String) (dv : Json)
    (hsid : optTruthy (alGet fs "sid") = false)
    (ht : alGet fs "type" = Option.some (Json.str name))
    (hd : alGet fs "data" = Option.some dv)
    (h1 : name ∉ handlerNames) (h2 : name ∉ parserOtherAttrs) :
    handleData st (Json.obj fs) = (st, Option.none) := by
  simp only [handleData, hsid, Bool.false_eq_true, if_false, ht, hd]
  rw [if_neg h1, if_neg h2]

/-- Witness for C8's amended statement: an unknown future event type. -/
theorem C8_witness :
    handleData (initGState 3)
        (Json.obj [("type", Json.str "SomeFutureEvent"), ("data", Json.null)])
      = (initGState 3, Option.none) :=
  C8_unrecognized_type_amended (initGState 3) _ "SomeFutureEvent" Json.null
    rfl rfl rfl (by decide) (by decide)

/-- C8 counterexample: the type string `"client"` does not name a
recognized event handler, yet dispatch is not a silent no-op -
`getattr(self, "client", None)` finds the client attribute, truthiness
passes, and calling it raises `TypeError` out of `received_event`. -/
theorem C8_counterexample :
    "client" ∉ handlerNames ∧
    (handleData (initGState 1000)
        (Json.obj [("type", Json.str "client"), ("data", Json.obj [])])).2
      = Option.some PyErr.typeError :=
  ⟨by decide, rfl⟩

/-! ## Heap / member-cache lemmas for the member-update handlers -/

theorem events_heapSetField (st : GState) (r : Nat) (k : String) (v : Json) :
    (heapSetField st r k v).events = st.events := by
  rw [heapSetField]
  repeat' split
  all_goals rfl

theorem events_addToMemberCache (st : GState) (r : Nat) :
    (addToMemberCache st r).events = st.events := by
  rw [addToMemberCache]
  repeat' split
  all_goals rfl

theorem nextRef_heapSetField (st : GState) (r : Nat) (k : String) (v : Json) :
    (heapSetField st r k v).nextRef = st.nextRef := by
  rw [heapSetField]
  repeat' split
  all_goals rfl

theorem nextRef_addToMemberCache (st : GState) (r : Nat) :
    (addToMemberCache st r).nextRef = st.nextRef := by
  rw [addToMemberCache]
  repeat' split
  all_goals rfl

theorem heapGet_heapSetField_self (st : GState) (r : Nat) (k : String) (v : Json)
    (m : MemberObj) (h : heapGet st r = Option.some m) :
    heapGet (heapSetField st r k v) r
      = Option.some { m with fields := alSet m.fields k v } := by
  have h2 : alGet st.memberHeap r = Option.some m := h
  simp only [heapSetField, h2, heapGet]
  exact alGet_alSet_self _ _ _

theorem heapGet_heapSetField_other (st : GState) (r2 : Nat) (k : String) (v : Json)
    (r : Nat) (h : r ≠ r2) :
    heapGet (heapSetField st r2 k v) r = heapGet st r := by
  rw [heapSetField]
  cases h2 : alGet st.memberHeap r2 with
  | none => rfl
  | some m => exact alGet_alSet_ne _ _ _ _ h

theorem heapGet_addToMemberCache (st : GState) (r2 r : Nat) :
    heapGet (addToMemberCache st r2) r = heapGet st r := by
  rw [addToMemberCache]
  repeat' split
  all_goals rfl

theorem teamGetMember_heapSetField (st : GState) (r : Nat) (k : String) (v : Json)
    (tid uid : String) :
    teamGetMember (heapSetField st r k v) tid uid = teamGetMember st tid uid := by
  rw [heapSetField]
  repeat' split
  all_goals rfl

theorem teamGetMember_addToMemberCache_self (st : GState) (r : Nat) (m : MemberObj)
    (h : heapGet st r = Option.some m) :
    teamGetMember (addToMemberCache st r) m.teamId m.userId = Option.some r := by
  simp only [addToMemberCache, h]
  cases hin : alGet st.teamMembers m.teamId with
  | none => simp [teamGetMember, alGet_alSet_self]
  | some inner => simp [teamGetMember, alGet_alSet_self]

theorem teamGetMember_addToMemberCache_keep (st : GState) (r : Nat) (m : MemberObj)
    (tid uid : String) (h : heapGet st r = Option.some m)
    (hl : teamGetMember st tid uid = Option.some r) :
    teamGetMember (addToMemberCache st r) tid uid = Option.some r := by
  unfold teamGetMember at hl
  cases htm : alGet st.teamMembers tid with
  | none => rw [htm] at hl; exact absurd hl (by simp)
  | some inner0 =>
    rw [htm] at hl
    by_cases htid : m.teamId = tid
    · subst htid
      simp only [addToMemberCache, h, htm]
      simp only [teamGetMember, alGet_alSet_self]
      by_cases huid : m.userId = uid
      · subst huid
        exact alGet_alSet_self _ _ _
      · rw [alGet_alSet_ne _ _ _ _ (fun hh => huid hh.symm)]
        exact hl
    · simp only [addToMemberCache, h]
      cases hin : alGet st.teamMembers m.teamId with
      | none =>
        simp only [teamGetMember]
        rw [alGet_alSet_ne _ _ _ _ (fun hh => htid hh.symm), htm]
        exact hl
      | some inner =>
        simp only [teamGetMember]
        rw [alGet_alSet_ne _ _ _ _ (fun hh => htid hh.symm), htm]
        exact hl

theorem memberCacheOk_heapSetField (st : GState) (rr : Nat) (k : String) (v : Json)
    (hok : memberCacheOk st) : memberCacheOk (heapSetField st rr k v) := by
  intro tid uid r hl
  rw [teamGetMember_heapSetField] at hl
  obtain ⟨m, hm, hid⟩ := hok tid uid r hl
  by_cases hr : r = rr
  · subst hr
    exact ⟨{ m with fields := alSet m.fields k v },
      heapGet_heapSetField_self st r k v m hm, hid⟩
  · exact ⟨m, by rw [heapGet_heapSetField_other st rr k v r hr]; exact hm, hid⟩

theorem memberCacheOk_addToMemberCache (st : GState) (rr : Nat)
    (hok : memberCacheOk st) : memberCacheOk (addToMemberCache st rr) := by
  intro tid uid r hl
  cases hh : heapGet st rr with
  | none =>
    have hnone : addToMemberCache st rr = st := by rw [addToMemberCache, hh]
    rw [hnone] at hl ⊢
    exact hok tid uid r hl
  | some m2 =>
    have hheap : ∀ r3, heapGet (addToMemberCache st rr) r3 = heapGet st r3 :=
      heapGet_addToMemberCache st rr
    have htm2 : (addToMemberCache st rr).teamMembers
        = alSet st.teamMembers m2.teamId
            (alSet ((alGet st.teamMembers m2.teamId).getD []) m2.userId rr) := by
      simp only [addToMemberCache, hh]
      cases alGet st.teamMembers m2.teamId <;> rfl
    unfold teamGetMember at hl
    rw [htm2] at hl
    by_cases htid : m2.teamId = tid
    · subst htid
      simp only [alGet_alSet_self] at hl
      by_cases huid : m2.userId = uid
      · subst huid
        rw [alGet_alSet_self] at hl
        cases hl
        exact ⟨m2, by rw [hheap]; exact hh, rfl⟩
      · rw [alGet_alSet_ne _ _ _ _ (fun hh2 => huid hh2.symm)] at hl
        cases hin : alGet st.teamMembers m2.teamId with
        | none =>
          rw [hin] at hl
          simp [alGet] at hl
        | some inner0 =>
          rw [hin] at hl
          obtain ⟨m, hm, hid⟩ := hok m2.teamId uid r (by
            unfold teamGetMember
            rw [hin]
            exact hl)
          exact ⟨m, by rw [hheap]; exact hm, hid⟩
    · rw [alGet_alSet_ne _ _ _ _ (fun hh2 => htid hh2.symm)] at hl
      obtain ⟨m, hm, hid⟩ := hok tid uid r (by unfold teamGetMember; exact hl)
      exact ⟨m, by rw [hheap]; exact hm, hid⟩

/-! ## Functional specification of the member-update loops -/

theorem tmuLoop_spec (team uid : String) (r : Nat) :
    ∀ (items : List (String × Json)) (st : GState) (acc : Option Nat) (m : MemberObj),
      teamGetMember st team uid = Option.some r →
      heapGet st r = Option.some m →
      (tmuLoop team uid st items acc).2
          = Except.ok (if items.isEmpty then acc else Option.some r) ∧
      (tmuLoop team uid st items acc).1.events = st.events ∧
      heapGet (tmuLoop team uid st items acc).1 r
        = Option.some { m with
            fields := items.foldl (fun a kv => alSet a kv.1 kv.2) m.fields } ∧
      teamGetMember (tmuLoop team uid st items acc).1 team uid = Option.some r
  | [], st, acc, m, hl, hh => ⟨rfl, rfl, hh, hl⟩
  | (k, v) :: rest, st, acc, m, hl, hh => by
    simp only [tmuLoop, hl]
    have hh1 : heapGet (heapSetField st r k v) r
        = Option.some { m with fields := alSet m.fields k v } :=
      heapGet_heapSetField_self st r k v m hh
    have hh2 : heapGet (addToMemberCache (heapSetField st r k v) r) r
        = Option.some { m with fields := alSet m.fields k v } := by
      rw [heapGet_addToMemberCache]
      exact hh1
    have hl2 : teamGetMember (addToMemberCache (heapSetField st r k v) r) team uid
        = Option.some r :=
      teamGetMember_addToMemberCache_keep _ r _ team uid hh1
        (by rw [teamGetMember_heapSetField]; exact hl)
    have IH := tmuLoop_spec team uid r rest
      (addToMemberCache (heapSetField st r k v) r) (Option.some r)
      { m with fields := alSet m.fields k v } hl2 hh2
    refine ⟨?_, ?_, ?_, IH.2.2.2⟩
    · rw [IH.1]
      cases rest <;> simp
    · rw [IH.2.1, events_addToMemberCache, events_heapSetField]
    · rw [IH.2.2.1]
      simp

theorem events_rolesLoop (team : String) :
    ∀ (entries : List Json) (st : GState),
      (rolesLoop team st entries).1.events = st.events
  | [], st => rfl
  | Json.null :: _, st => rfl
  | Json.bool _ :: _, st => rfl
  | Json.num _ :: _, st => rfl
  | Json.str _ :: _, st => rfl
  | Json.arr _ :: _, st => rfl
  | Json.obj efs :: rest, st => by
    rw [rolesLoop]
    repeat' split
    all_goals first
      | rfl
      | exact events_rolesLoop team rest st
      | exact (events_rolesLoop team rest _).trans
          ((events_addToMemberCache _ _).trans (events_heapSetField _ _ _ _))

theorem memberCacheOk_rolesLoop_state (team : String) :
    ∀ (entries : List Json) (st : GState), memberCacheOk st →
      memberCacheOk (rolesLoop team st entries).1
  | [], st, hok => hok
  | Json.null :: _, st, hok => hok
  | Json.bool _ :: _, st, hok => hok
  | Json.num _ :: _, st, hok => hok
  | Json.str _ :: _, st, hok => hok
  | Json.arr _ :: _, st, hok => hok
  | Json.obj efs :: rest, st, hok => by
    rw [rolesLoop]
    repeat' split
    all_goals first
      | exact hok
      | exact memberCacheOk_rolesLoop_state team rest st hok
      | exact memberCacheOk_rolesLoop_state team rest _
          (memberCacheOk_addToMemberCache _ _ (memberCacheOk_heapSetField _ _ _ _ hok))

theorem rolesLoop_pairs (team : String) :
    ∀ (entries : List Json) (st : GState), memberCacheOk st →
      (∀ e ∈ entries, roleEntryWF e) →
      ∃ pairs, (rolesLoop team st entries).2 = Except.ok pairs ∧
        ∀ p ∈ pairs, p.1 = p.2
  | [], st, _, _ => ⟨[], rfl, by simp⟩
  | Json.null :: rest, st, _, hwf => absurd (hwf Json.null (by simp)) (by simp [roleEntryWF])
  | Json.bool b :: rest, st, _, hwf =>
    absurd (hwf (Json.bool b) (by simp)) (by simp [roleEntryWF])
  | Json.num n :: rest, st, _, hwf =>
    absurd (hwf (Json.num n) (by simp)) (by simp [roleEntryWF])
  | Json.str s :: rest, st, _, hwf =>
    absurd (hwf (Json.str s) (by simp)) (by simp [roleEntryWF])
  | Json.arr l :: rest, st, _, hwf =>
    absurd (hwf (Json.arr l) (by simp)) (by simp [roleEntryWF])
  | Json.obj efs :: rest, st, hok, hwf => by
    obtain ⟨⟨u, hu⟩, hrids⟩ := hwf (Json.obj efs) (by simp)
    have hwrest : ∀ e ∈ rest, roleEntryWF e := fun e he => hwf e (by simp [he])
    rw [rolesLoop]
    simp only [hu]
    cases hb : teamGetMember st team u with
    | none => exact rolesLoop_pairs team rest st hok hwrest
    | some beforeRef =>
      obtain ⟨bo, hbo, hid⟩ := hok team u beforeRef hb
      simp only [hbo, hid, hb]
      cases hri : alGet efs "roleIds" with
      | none => rw [hri] at hrids; simp at hrids
      | some roleIds =>
        have hok2 : memberCacheOk
            (addToMemberCache (heapSetField st beforeRef "roles" roleIds) beforeRef) :=
          memberCacheOk_addToMemberCache _ _ (memberCacheOk_heapSetField _ _ _ _ hok)
        obtain ⟨pairs, hp, hself⟩ := rolesLoop_pairs team rest _ hok2 hwrest
        refine ⟨(beforeRef, beforeRef) :: pairs, ?_, ?_⟩
        · simp only [hp]
        · intro p hp2
          rcases List.mem_cons.mp hp2 with h | h
          · rw [h]
          · exact hself p h

theorem teamMemberUpdated_run
    (st : GState) (fs : List (String × Json)) (tid uid : String)
    (items : List (String × Json)) (r : Nat) (m : MemberObj)
    (h1 : alGet fs "teamId" = Option.some (Json.str tid))
    (h2 : tid ∈ st.teams)
    (h3 : alGet fs "userId" = Option.some (Json.str uid))
    (h4 : teamGetMember st tid uid = Option.some r)
    (h5 : heapGet st r = Option.some m)
    (h6 : alGet fs "userInfo" = Option.some (Json.obj items)) :
    (items = [] →
      (teamMemberUpdated st (Json.obj fs)).2 = Option.some PyErr.unboundLocalError ∧
      (teamMemberUpdated st (Json.obj fs)).1.events
        = st.events ++ [⟨"raw_member_update", [EvArg.memberArg st.nextRef]⟩]) ∧
    (items ≠ [] →
      (teamMemberUpdated st (Json.obj fs)).2 = Option.none ∧
      (teamMemberUpdated st (Json.obj fs)).1.events
        = st.events ++ [⟨"raw_member_update", [EvArg.memberArg st.nextRef]⟩,
                        ⟨"member_update", [EvArg.memberArg r, EvArg.memberArg r]⟩] ∧
      heapGet (teamMemberUpdated st (Json.obj fs)).1 r
        = Option.some { m with
            fields := items.foldl (fun a kv => alSet a kv.1 kv.2) m.fields } ∧
      teamGetMember (teamMemberUpdated st (Json.obj fs)).1 tid uid = Option.some r) := by
  have hl1 : teamGetMember (dispatchEv (allocMember st (memberFromData fs)).1
      "raw_member_update" [EvArg.memberArg (allocMember st (memberFromData fs)).2]) tid uid
      = Option.some r := h4
  have hh1 : heapGet (dispatchEv (allocMember st (memberFromData fs)).1
      "raw_member_update" [EvArg.memberArg (allocMember st (memberFromData fs)).2]) r
      = Option.some m := by
    show alGet (st.memberHeap ++ [(st.nextRef, memberFromData fs)]) r = Option.some m
    rw [alGet_append_of_isSome _ _ _
      (by rw [show alGet st.memberHeap r = Option.some m from h5]; rfl)]
    exact h5
  have hteam : getTeam (dispatchEv (allocMember st (memberFromData fs)).1
      "raw_member_update" [EvArg.memberArg (allocMember st (memberFromData fs)).2]) tid
      = Option.some tid := by
    show getTeam st tid = Option.some tid
    unfold getTeam
    rw [if_pos h2]
  have IH := tmuLoop_spec tid uid r items
    (dispatchEv (allocMember st (memberFromData fs)).1 "raw_member_update"
      [EvArg.memberArg (allocMember st (memberFromData fs)).2]) Option.none m hl1 hh1
  constructor
  · intro hemp
    subst hemp
    have hres : (tmuLoop tid uid (dispatchEv (allocMember st (memberFromData fs)).1
        "raw_member_update" [EvArg.memberArg (allocMember st (memberFromData fs)).2])
        [] Option.none).2 = Except.ok Option.none := IH.1
    constructor
    · simp only [teamMemberUpdated, h1, h3, h6, hteam, hl1, hres]
    · simp only [teamMemberUpdated, h1, h3, h6, hteam, hl1, hres]
      simp [tmuLoop, dispatchEv, allocMember]
  · intro hne
    have hie : items.isEmpty = false := by
      cases items with
      | nil => exact absurd rfl hne
      | cons a b => rfl
    have hres : (tmuLoop tid uid (dispatchEv (allocMember st (memberFromData fs)).1
        "raw_member_update" [EvArg.memberArg (allocMember st (memberFromData fs)).2])
        items Option.none).2 = Except.ok (Option.some r) := by
      simp [IH.1, hie]
    refine ⟨?_, ?_, ?_, ?_⟩
    · simp only [teamMemberUpdated, h1, h3, h6, hteam, hl1, hres]
    · simp only [teamMemberUpdated, h1, h3, h6, hteam, hl1, hres]
      show (tmuLoop tid uid (dispatchEv (allocMember st (memberFromData fs)).1
            "raw_member_update" [EvArg.memberArg (allocMember st (memberFromData fs)).2])
            items Option.none).1.events
            ++ [⟨"member_update", [EvArg.memberArg r, EvArg.memberArg r]⟩]
          = st.events ++ [⟨"raw_member_update", [EvArg.memberArg st.nextRef]⟩,
                          ⟨"member_update", [EvArg.memberArg r, EvArg.memberArg r]⟩]
      rw [IH.2.1]
      show (st.events ++ [⟨"raw_member_update", [EvArg.memberArg st.nextRef]⟩])
          ++ [⟨"member_update", [EvArg.memberArg r, EvArg.memberArg r]⟩]
          = st.events ++ [⟨"raw_member_update", [EvArg.memberArg st.nextRef]⟩,
                          ⟨"member_update", [EvArg.memberArg r, EvArg.memberArg r]⟩]
      rw [List.append_assoc]
      rfl
    · simp only [teamMemberUpdated, h1, h3, h6, hteam, hl1, hres]
      exact IH.2.2.1
    · simp only [teamMemberUpdated, h1, h3, h6, hteam, hl1, hres]
      exact IH.2.2.2

theorem teamXpSet_spec
    (st : GState) (fs : List (String × Json)) (tid uid : String) (us : List Json)
    (r : Nat) (m : MemberObj) (amt : Json)
    (ha : alGet fs "amount" = Option.some amt) (hat : truthy amt = true)
    (h1 : alGet fs "teamId" = Option.some (Json.str tid)) (h2 : tid ∈ st.teams)
    (h3 : alGet fs "userIds" = Option.some (Json.arr (Json.str uid :: us)))
    (h4 : teamGetMember st tid uid = Option.some r)
    (h5 : heapGet st r = Option.some m) (hid : m.userId = uid) :
    teamXpSet st (Json.obj fs)
      = (dispatchEv (addToMemberCache (heapSetField st r "xp" amt) r) "member_update"
          [EvArg.memberArg r, EvArg.memberArg r], Option.none) := by
  have hteam : getTeam st tid = Option.some tid := by
    unfold getTeam
    rw [if_pos h2]
  simp only [teamXpSet, ha, optTruthy, hat, Bool.not_true, Bool.false_eq_true, if_false,
    h1, hteam, h3, List.head?_cons, h4, h5, hid, Option.getD_some]

theorem foldlDispatch_events (nm : String) (f : Nat × Nat → List EvArg) :
    ∀ (pairs : List (Nat × Nat)) (st : GState),
      (pairs.foldl (fun s p => dispatchEv s nm (f p)) st).events
        = st.events ++ pairs.map (fun p => (⟨nm, f p⟩ : Ev))
  | [], st => by simp
  | p :: rest, st => by
    rw [List.foldl_cons, foldlDispatch_events nm f rest _]
    simp [dispatchEv, List.append_assoc]

theorem foldlMemberUpdate_events :
    ∀ (pairs : List (Nat × Nat)) (st : GState),
      (pairs.foldl (fun s p => dispatchEv s "member_update"
          [EvArg.memberArg p.1, EvArg.memberArg p.2]) st).events
        = st.events ++ pairs.map
            (fun p => (⟨"member_update",
                [EvArg.memberArg p.1, EvArg.memberArg p.2]⟩ : Ev))
  | [], st => by simp
  | p :: rest, st => by
    rw [List.foldl_cons, foldlMemberUpdate_events rest _]
    simp [dispatchEv, List.append_assoc]

theorem events_dispatchEv (st : GState) (n : String) (a : List EvArg) :
    (dispatchEv st n a).events = st.events ++ [⟨n, a⟩] := rfl

theorem events_allocMember (st : GState) (m : MemberObj) :
    (allocMember st m).1.events = st.events := rfl

theorem take_len_succ_append {α : Type} : ∀ (l : List α) (x : α) (r : List α),
    (l ++ x :: r).take (l.length + 1) = l ++ [x]
  | [], x, r => rfl
  | y :: ys, x, r => by
    simp only [List.cons_append, List.length_cons, List.take_succ_cons,
      take_len_succ_append ys x r]

theorem tmuLoop_events (team uid : String) :
    ∀ (items : List (String × Json)) (st : GState) (acc : Option Nat),
      (tmuLoop team uid st items acc).1.events = st.events
  | [], st, acc => rfl
  | (k, v) :: rest, st, acc => by
    rw [tmuLoop]
    cases teamGetMember st team uid with
    | none => rfl
    | some r =>
      rw [tmuLoop_events team uid rest _ (Option.some r),
        events_addToMemberCache, events_heapSetField]

/-- On *every* state and *every* dict payload - team or member cached or
not, `userInfo` present or not - `TeamMemberUpdated` builds the raw
member object and fires `raw_member_update` first: the first event
appended is always the raw update event. -/
theorem teamMemberUpdated_raw_first (st : GState) (fs : List (String × Json)) :
    (teamMemberUpdated st (Json.obj fs)).1.events.take (st.events.length + 1)
      = st.events ++ [⟨"raw_member_update", [EvArg.memberArg st.nextRef]⟩] := by
  simp only [teamMemberUpdated]
  repeat' split
  all_goals first
    | exact take_len_succ_append st.events _ []
    | (simp only [events_dispatchEv, events_allocMember, tmuLoop_events,
         List.append_assoc, List.singleton_append]
       exact take_len_succ_append st.events _ _)

/-! ## Claim C7 (corrected): member-profile updates -/

/-- C7 amended: for *every* member-profile-update event, a raw-update
object is constructed from the payload and the raw update event is fired
first, whether or not the team or member is cached and whether or not a
field batch is present (first conjunct, unconditional over states and
dict payloads).  When the member is cached and the field batch is
*nonempty*, each field is applied onto the cached member object, the
cache is updated, and exactly one typed `(before, after)` update event is
fired after the full batch - but when the batch is *empty* the handler
raises `UnboundLocalError` (the loop variable `after` was never bound)
after the raw event, and no typed event is fired (second conjunct). -/
theorem C7_member_profile_update_amended :
    (∀ (st : GState) (fs : List (String × Json)),
        (teamMemberUpdated st (Json.obj fs)).1.events.take (st.events.length + 1)
          = st.events ++ [⟨"raw_member_update", [EvArg.memberArg st.nextRef]⟩]) ∧
    (∀ (st : GState) (fs : List (String × Json)) (tid uid : String)
        (items : List (String × Json)) (r : Nat) (m : MemberObj),
        alGet fs "teamId" = Option.some (Json.str tid) → tid ∈ st.teams →
        alGet fs "userId" = Option.some (Json.str uid) →
        teamGetMember st tid uid = Option.some r →
        heapGet st r = Option.some m →
        alGet fs "userInfo" = Option.some (Json.obj items) →
        (items ≠ [] →
          (teamMemberUpdated st (Json.obj fs)).2 = Option.none ∧
          (teamMemberUpdated st (Json.obj fs)).1.events
            = st.events ++ [⟨"raw_member_update", [EvArg.memberArg st.nextRef]⟩,
                            ⟨"member_update", [EvArg.memberArg r, EvArg.memberArg r]⟩] ∧
          heapGet (teamMemberUpdated st (Json.obj fs)).1 r
            = Option.some { m with
                fields := items.foldl (fun a kv => alSet a kv.1 kv.2) m.fields } ∧
          teamGetMember (teamMemberUpdated st (Json.obj fs)).1 tid uid
            = Option.some r) ∧
        (items = [] →
          (teamMemberUpdated st (Json.obj fs)).2
            = Option.some PyErr.unboundLocalError ∧
          (teamMemberUpdated st (Json.obj fs)).1.events
            = st.events ++ [⟨"raw_member_update", [EvArg.memberArg st.nextRef]⟩])) := by
  refine ⟨teamMemberUpdated_raw_first, ?_⟩
  intro st fs tid uid items r m h1 h2 h3 h4 h5 h6
  have h := teamMemberUpdated_run st fs tid uid items r m h1 h2 h3 h4 h5 h6
  exact ⟨h.2, h.1⟩

/-- C7 counterexample: with team `t1` and member `u1` cached and an empty
`userInfo` batch, the handler raises `UnboundLocalError` and fires no
typed `member_update` event (though the raw event was fired), against the
claim's "including when the field batch is empty". -/
theorem C7_counterexample :
    (teamMemberUpdated exSt c7EmptyPayload).2 = Option.some PyErr.unboundLocalError ∧
    ((teamMemberUpdated exSt c7EmptyPayload).1.events.filter
        (fun e => e.name == "member_update")).length = 0 ∧
    ((teamMemberUpdated exSt c7EmptyPayload).1.events.filter
        (fun e => e.name == "raw_member_update")).length = 1 :=
  ⟨rfl, rfl, rfl⟩

/-- Witness for C7's amended statement: the unconditional raw-event
clause at an *uncached* team, and the cached one-field-batch case. -/
theorem C7_witness :
    (teamMemberUpdated (initGState 2)
        (Json.obj [("teamId", Json.str "ghost")])).1.events.take
          ((initGState 2).events.length + 1)
      = (initGState 2).events
          ++ [⟨"raw_member_update", [EvArg.memberArg (initGState 2).nextRef]⟩] ∧
    (teamMemberUpdated exSt c7OnePayload).2 = Option.none ∧
    (teamMemberUpdated exSt c7OnePayload).1.events
      = exSt.events ++ [⟨"raw_member_update", [EvArg.memberArg exSt.nextRef]⟩,
                        ⟨"member_update", [EvArg.memberArg 0, EvArg.memberArg 0]⟩] ∧
    heapGet (teamMemberUpdated exSt c7OnePayload).1 0
      = Option.some { exMember with
          fields := [(("nickname" : String), Json.str "neo")].foldl
            (fun a kv => alSet a kv.1 kv.2) exMember.fields } := by
  have hraw := C7_member_profile_update_amended.1 (initGState 2)
    [("teamId", Json.str "ghost")]
  have h := (C7_member_profile_update_amended.2 exSt
    [("teamId", Json.str "t1"), ("userId", Json.str "u1"),
     ("userInfo", Json.obj [("nickname", Json.str "neo")])]
    "t1" "u1" [("nickname", Json.str "neo")] 0 exMember
    rfl (by decide) rfl rfl rfl rfl).1 (by simp)
  exact ⟨hraw, h.1, h.2.1, h.2.2.1⟩

/-! ## Claim C10: `before` and `after` are the same cached object -/

/-- C10: in the `TeamXpSet`, `TeamMemberUpdated` (nonempty batch) and
`teamRolesUpdates` handlers, the `before` argument of every dispatched
`(before, after)` member-update is the *same heap reference* as `after` -
the cache lookup returned the identical object both times - so at
dispatch time the fields read through `before` are the new values (shown
for `TeamXpSet`: the one shared object carries the new `xp`), and the
prior values are not observable through `before`. -/
theorem C10_before_after_same_object :
    (∀ (st : GState) (fs : List (String × Json)) (tid uid : String)
        (items : List (String × Json)) (r : Nat) (m : MemberObj),
        alGet fs "teamId" = Option.some (Json.str tid) → tid ∈ st.teams →
        alGet fs "userId" = Option.some (Json.str uid) →
        teamGetMember st tid uid = Option.some r →
        heapGet st r = Option.some m →
        alGet fs "userInfo" = Option.some (Json.obj items) → items ≠ [] →
        memberUpdatePairsSelf
          ((teamMemberUpdated st (Json.obj fs)).1.events.drop st.events.length)) ∧
    (∀ (st : GState) (fs : List (String × Json)) (tid uid : String) (us : List Json)
        (r : Nat) (m : MemberObj) (amt : Json),
        alGet fs "amount" = Option.some amt → truthy amt = true →
        alGet fs "teamId" = Option.some (Json.str tid) → tid ∈ st.teams →
        alGet fs "userIds" = Option.some (Json.arr (Json.str uid :: us)) →
        teamGetMember st tid uid = Option.some r →
        heapGet st r = Option.some m → m.userId = uid →
        memberUpdatePairsSelf
          ((teamXpSet st (Json.obj fs)).1.events.drop st.events.length) ∧
        heapGet (teamXpSet st (Json.obj fs)).1 r
          = Option.some { m with fields := alSet m.fields "xp" amt }) ∧
    (∀ (st : GState) (fs : List (String × Json)) (tid : String) (entries : List Json),
        alGet fs "teamId" = Option.some (Json.str tid) → tid ∈ st.teams →
        alGet fs "memberRoleIds" = Option.some (Json.arr entries) →
        memberCacheOk st → (∀ e ∈ entries, roleEntryWF e) →
        (teamRolesUpdates st (Json.obj fs)).2 = Option.none ∧
        memberUpdatePairsSelf
          ((teamRolesUpdates st (Json.obj fs)).1.events.drop st.events.length)) := by
  refine ⟨?_, ?_, ?_⟩
  · intro st fs tid uid items r m h1 h2 h3 h4 h5 h6 hne
    have h := ((teamMemberUpdated_run st fs tid uid items r m h1 h2 h3 h4 h5 h6).2 hne).2.1
    rw [h, List.drop_left]
    intro e he hn
    rcases List.mem_cons.mp he with he1 | he2
    · subst he1
      simp at hn
    · rcases List.mem_cons.mp he2 with he3 | he4
      · subst he3
        exact ⟨r, rfl⟩
      · simp at he4
  · intro st fs tid uid us r m amt ha hat h1 h2 h3 h4 h5 hid
    have hspec := teamXpSet_spec st fs tid uid us r m amt ha hat h1 h2 h3 h4 h5 hid
    constructor
    · rw [hspec]
      show memberUpdatePairsSelf
        (((addToMemberCache (heapSetField st r "xp" amt) r).events
          ++ [(⟨"member_update", [EvArg.memberArg r, EvArg.memberArg r]⟩ : Ev)]).drop
            st.events.length)
      rw [events_addToMemberCache, events_heapSetField, List.drop_left]
      intro e he hn
      rcases List.mem_cons.mp he with he1 | he2
      · subst he1
        exact ⟨r, rfl⟩
      · simp at he2
    · rw [hspec]
      show heapGet (addToMemberCache (heapSetField st r "xp" amt) r) r
        = Option.some { m with fields := alSet m.fields "xp" amt }
      rw [heapGet_addToMemberCache]
      exact heapGet_heapSetField_self st r "xp" amt m h5
  · intro st fs tid entries h1 h2 hmri hok hwf
    have hteam : getTeam st tid = Option.some tid := by
      unfold getTeam
      rw [if_pos h2]
    obtain ⟨pairs, hp, hself⟩ := rolesLoop_pairs tid entries st hok hwf
    constructor
    · simp only [teamRolesUpdates, h1, hteam, hmri, hp]
    · simp only [teamRolesUpdates, h1, hteam, hmri, hp]
      rw [foldlMemberUpdate_events, events_rolesLoop, List.drop_left]
      intro e he hn
      obtain ⟨p, hpmem, hpe⟩ := List.mem_map.mp he
      subst hpe
      exact ⟨p.1, by rw [← hself p hpmem]⟩

/-- Witness for C10 at the cached member `u1` and a `TeamXpSet` payload. -/
theorem C10_witness :
    memberUpdatePairsSelf
      ((teamXpSet exSt (Json.obj [("amount", Json.num 50), ("teamId", Json.str "t1"),
          ("userIds", Json.arr [Json.str "u1"])])).1.events.drop exSt.events.length) ∧
    heapGet (teamXpSet exSt (Json.obj [("amount", Json.num 50), ("teamId", Json.str "t1"),
        ("userIds", Json.arr [Json.str "u1"])])).1 0
      = Option.some { exMember with fields := alSet exMember.fields "xp" (Json.num 50) } :=
  C10_before_after_same_object.2.1 exSt
    [("amount", Json.num 50), ("teamId", Json.str "t1"),
     ("userIds", Json.arr [Json.str "u1"])]
    "t1" "u1" [] 0 exMember (Json.num 50) rfl rfl rfl (by decide) rfl rfl rfl rfl
